import Mathlib

/-!
Verification development for the LC-API service (src/main.py).

The service is a read-through caching proxy in front of an upstream GraphQL
profile API.  The core under verification is:

* `process_progress_by_year` (src/main.py lines 92-130): the calendar
  aggregator turning a sparse timestamp-to-count map into per-year buckets
  with daily breakdowns plus a trailing-365-day "current" bucket;
* `get_user_data` (src/main.py lines 186-271): the request handler that
  consults the cache, calls upstream, validates, assembles the response
  object, writes it back to the cache, and converts any raised exception at
  the single try/except boundary into a generic error object.

Modelling conventions:

* JSON values are the inductive `Json` below; numbers are modelled as
  integers (every numeric field this service touches is integral).
* Python dicts are association lists: an assignment to an existing key keeps
  its position, a new key is appended, which is exactly CPython insertion
  order.  `json.dumps`/`json.loads` are mutually inverse on this data model,
  so the cache is modelled as storing the JSON value itself.
* Fallible Python operations (subscripting, attribute access, `int()`,
  `json.loads`) return `Except String`; the carried message stands in for
  `str(e)` of the raised exception.  Exact CPython message texts are not
  reproduced; no claim fixes them beyond the mandated prefix.
* `datetime.date.fromtimestamp` converts in the fixed reference time zone
  UTC (the zone the spec directs the implementation to pick): the epoch day
  is `ts / 86400` rounded toward negative infinity, converted to a calendar
  date with the standard civil-from-days algorithm.  CPython restricts
  dates to years 1..9999 and raises outside that range; the model does the
  same.  `datetime.date.today()` is modelled by passing the clock's epoch
  day `todayZ` explicitly.
* Redis is modelled as an association list of entries `key, value, ttl`
  plus two transient-availability flags; a failing command raises, exactly
  as redis-py does when the store is unreachable.
-/

set_option maxRecDepth 10000
set_option maxHeartbeats 1000000

namespace LCAPI

/-! ## Association lists (Python dict semantics) -/

/-- Lookup in an association list, first binding wins (Python dict read). -/
def alookup {α β : Type} [DecidableEq α] : List (α × β) → α → Option β
  | [], _ => none
  | (k, v) :: t, a => if k = a then some v else alookup t a

/-- Update of an association list: an existing key keeps its position and
gets the new value, a fresh key is appended at the end.  This is CPython
dict assignment, including insertion-order behaviour. -/
def aset {α β : Type} [DecidableEq α] : List (α × β) → α → β → List (α × β)
  | [], a, b => [(a, b)]
  | (k, v) :: t, a, b => if k = a then (a, b) :: t else (k, v) :: aset t a b

/-- Key membership of an association list (Python `k in dict`). -/
def containsKey {α β : Type} [DecidableEq α] (m : List (α × β)) (k : α) : Bool :=
  m.any (fun kv => decide (kv.1 = k))

/-! ## JSON data model -/

/-- JSON values.  Numbers are integers: every numeric field the service
reads or writes (submission counts, question counts, rankings, TTLs) is
integral, and the claims quantify over integer-count calendars. -/
inductive Json where
  | null : Json
  | bool : Bool → Json
  | num : Int → Json
  | str : String → Json
  | arr : List Json → Json
  | obj : List (String × Json) → Json
deriving Repr

/-! ## Python operation semantics over `Json` -/

/-- Python truthiness (`not x` tests): `None`, `False`, `0`, the empty
string, the empty list and the empty dict are falsy. -/
def pyFalsy : Json → Bool
  | .null => true
  | .bool b => !b
  | .num n => decide (n = 0)
  | .str s => decide (s = "")
  | .arr xs => xs.isEmpty
  | .obj kvs => kvs.isEmpty

/-- Python `key in x`.  Dicts test key membership, lists test element
membership, strings test substring containment; other values raise
`TypeError`. -/
def pyIn (s : String) : Json → Except String Bool
  | .obj kvs => .ok (kvs.any (fun kv => decide (kv.1 = s)))
  | .arr xs => .ok (xs.any (fun x =>
      match x with
      | .str t => decide (t = s)
      | _ => false))
  | .str hay => .ok (decide (1 < (hay.splitOn s).length))
  | _ => .error "argument of type is not iterable"

/-- Python `x[key]` for a string key: dict lookup raising `KeyError` when
the key is absent, `TypeError` on every non-dict value. -/
def pySubscript : Json → String → Except String Json
  | .obj kvs, k =>
    match alookup kvs k with
    | some v => .ok v
    | none => .error ("KeyError: " ++ k)
  | .str _, _ => .error "string indices must be integers"
  | .arr _, _ => .error "list indices must be integers or slices, not str"
  | .null, _ => .error "NoneType object is not subscriptable"
  | .bool _, _ => .error "bool object is not subscriptable"
  | .num _, _ => .error "int object is not subscriptable"

/-- Python `x.get(key, default)`: defined on dicts only, `AttributeError`
otherwise. -/
def pyGet : Json → String → Json → Except String Json
  | .obj kvs, k, dflt => .ok ((alookup kvs k).getD dflt)
  | _, _, _ => .error "object has no attribute get"

/-- ASCII lower-casing of one character. -/
def lowerChar (c : Char) : Char :=
  if 'A' ≤ c ∧ c ≤ 'Z' then Char.ofNat (c.toNat + 32) else c

/-- ASCII lower-casing of a string. -/
def lowerStr (s : String) : String :=
  String.mk (s.data.map lowerChar)

/-- Python `x.lower()` as used on difficulty names: defined on strings,
`AttributeError` otherwise.  ASCII lowering (all difficulty names the
service compares are ASCII). -/
def pyLower : Json → Except String String
  | .str s => .ok (lowerStr s)
  | _ => .error "object has no attribute lower"

/-- Python `for x in y`: lists yield their elements, dicts their keys,
strings their characters; other values raise `TypeError`. -/
def pyIter : Json → Except String (List Json)
  | .arr xs => .ok xs
  | .obj kvs => .ok (kvs.map (fun kv => Json.str kv.1))
  | .str s => .ok (s.data.map (fun c => Json.str (String.singleton c)))
  | _ => .error "object is not iterable"

/-- Python `int(s)` on a string: strips surrounding whitespace, accepts an
optional sign followed by at least one digit.  (CPython additionally allows
digit-group underscores; calendar keys never contain them.) -/
def pyInt (s : String) : Except String Int :=
  let core := ((s.data.dropWhile Char.isWhitespace).reverse.dropWhile
      Char.isWhitespace).reverse
  let digits : List Char → Except String Int := fun ds =>
    if ds ≠ [] ∧ ds.all Char.isDigit then
      .ok (Int.ofNat (ds.foldl (fun n c => 10 * n + (c.toNat - 48)) 0))
    else .error ("invalid literal for int with base 10: " ++ s)
  match core with
  | '-' :: rest =>
    match digits rest with
    | .ok n => .ok (-n)
    | .error e => .error e
  | '+' :: rest => digits rest
  | rest => digits rest

/-! ## Calendar dates

`datetime.date.fromtimestamp` in the fixed reference zone UTC.  The epoch
day is the timestamp divided by 86400 rounded toward negative infinity,
turned into a proleptic Gregorian date with the standard civil-from-days
algorithm.  `Int.ediv` is floor division for the positive divisors used
here. -/

/-- A calendar date.  The source keys its daily maps by
`date.isoformat()`; iso-format is injective on the representable range
(fixed-width zero-padded fields), so the maps are keyed by the date value
itself and stringified only when the final JSON object is assembled. -/
structure Date where
  year : Int
  month : Int
  day : Int
deriving DecidableEq, Repr

/-- Civil-from-days: convert an epoch day number (1970-01-01 is day 0) to a
proleptic Gregorian calendar date. -/
def civilFromDays (z0 : Int) : Date :=
  let z := z0 + 719468
  let era := Int.ediv z 146097
  let doe := z - era * 146097
  let yoe := Int.ediv
    (doe - Int.ediv doe 1460 + Int.ediv doe 36524 - Int.ediv doe 146096) 365
  let y := yoe + era * 400
  let doy := doe - (365 * yoe + Int.ediv yoe 4 - Int.ediv yoe 100)
  let mp := Int.ediv (5 * doy + 2) 153
  let d := doy - Int.ediv (153 * mp + 2) 5 + 1
  let m := mp + (if mp < 10 then 3 else -9)
  ⟨(if m ≤ 2 then y + 1 else y), m, d⟩

/-- `datetime.date.fromtimestamp(ts)` in UTC (without the year range check,
which `processEntry` performs where CPython would raise). -/
def tsToDate (ts : Int) : Date :=
  civilFromDays (Int.ediv ts 86400)

/-- Python `date` comparison: lexicographic on (year, month, day). -/
def dateLe (a b : Date) : Bool :=
  decide (a.year < b.year ∨ (a.year = b.year ∧
    (a.month < b.month ∨ (a.month = b.month ∧ a.day ≤ b.day))))

/-- Zero-padded decimal rendering of a non-negative component. -/
def padNum (width : Nat) (n : Nat) : String :=
  let s := toString n
  String.mk (List.replicate (width - s.length) '0') ++ s

/-- Python `date.isoformat()`: YYYY-MM-DD with zero padding. -/
def isoformat (d : Date) : String :=
  padNum 4 d.year.toNat ++ "-" ++ padNum 2 d.month.toNat ++ "-" ++
    padNum 2 d.day.toNat

/-! ## The calendar aggregator: `process_progress_by_year` -/

/-- One aggregation bucket: the per-day map plus its running total
(src/main.py lines 99-100). -/
structure Bucket where
  daily : List (Date × Int)
  total : Int
deriving DecidableEq, Repr

def emptyBucket : Bucket := ⟨[], 0⟩

/-- The loop state of `process_progress_by_year`: `yearly_data` (a
defaultdict keyed by year) and `current_data`. -/
structure AggState where
  yearly : List (Int × Bucket)
  current : Bucket
deriving DecidableEq, Repr

/-- Left fold through `Except`, propagating the first raised error: the
Python `for` loop inside the enclosing try block. -/
def foldE {σ α ε : Type} (f : σ → α → Except ε σ) : σ → List α → Except ε σ
  | s, [] => .ok s
  | s, a :: as =>
    match f s a with
    | .error e => .error e
    | .ok s2 => foldE f s2 as

/-- The trailing-window test of src/main.py line 114:
`one_year_ago <= date <= today` with `one_year_ago = today -
timedelta(days=365)`, both ends inclusive. -/
def inWindow (todayZ : Int) (d : Date) : Bool :=
  dateLe (civilFromDays (todayZ - 365)) d && dateLe d (civilFromDays todayZ)

/-- One iteration of the aggregation loop (src/main.py lines 103-116):
parse the timestamp key, convert it to a date (raising like CPython outside
years 1..9999), write the count into the year bucket, and additionally into
the current bucket when the date lies in the trailing window. -/
def processEntry (todayZ : Int) (st : AggState) (e : String × Int) :
    Except String AggState :=
  match pyInt e.1 with
  | .error msg => .error msg
  | .ok ts =>
    let d := tsToDate ts
    if d.year < 1 ∨ 9999 < d.year then .error "year is out of range"
    else
      let b := (alookup st.yearly d.year).getD emptyBucket
      let b2 : Bucket := ⟨aset b.daily d e.2, b.total + e.2⟩
      let cur2 :=
        if inWindow todayZ d then
          (⟨aset st.current.daily d e.2, st.current.total + e.2⟩ : Bucket)
        else st.current
      .ok ⟨aset st.yearly d.year b2, cur2⟩

/-- Insert into a descending-sorted list of years. -/
def insertDesc (x : Int) : List Int → List Int
  | [] => [x]
  | y :: ys => if y ≤ x then x :: y :: ys else y :: insertDesc x ys

/-- `sorted(keys, reverse=True)` (src/main.py line 122). -/
def sortDesc (l : List Int) : List Int :=
  l.foldr insertDesc []

/-- `process_progress_by_year` (src/main.py lines 92-130): fold the
calendar entries, then emit the `current` bucket first followed by the year
buckets keyed by `str(year)` in descending year order. -/
def process_progress_by_year (cal : List (String × Int)) (todayZ : Int) :
    Except String (List (String × Bucket)) :=
  match foldE (processEntry todayZ) ⟨[], emptyBucket⟩ cal with
  | .error e => .error e
  | .ok st =>
    .ok (("current", st.current) ::
      (sortDesc (st.yearly.map (fun yb => yb.1))).map
        (fun y => (toString y, (alookup st.yearly y).getD emptyBucket)))

/-! ## `json.loads` for the submission calendar

The upstream `submissionCalendar` field is a JSON string encoding a flat
object from timestamp strings to integer counts.  The parser below accepts
exactly that shape (JSON integers, no escapes inside keys, no floats);
`json.loads` would accept other JSON documents, but every such document
subsequently raises inside the try block as well (`.items()` on a non-dict,
or arithmetic on a non-integer count), so the observable outcome class,
generic error, is the same.  Duplicate keys follow CPython: the last value
wins and the key keeps its first position. -/

def lbrace : Char := Char.ofNat 123
def rbrace : Char := Char.ofNat 125
def dquote : Char := Char.ofNat 34
def bslash : Char := Char.ofNat 92

/-- Drop leading JSON whitespace. -/
def skipWs : List Char → List Char
  | c :: cs => if c.isWhitespace then skipWs cs else c :: cs
  | [] => []

/-- Read the body of a JSON string up to the closing quote (escape
sequences unsupported: timestamp keys are plain digit strings). -/
def takeStr : List Char → Option (List Char × List Char)
  | [] => none
  | c :: cs =>
    if c = dquote then some ([], cs)
    else if c = bslash then none
    else
      match takeStr cs with
      | none => none
      | some (acc, rest) => some (c :: acc, rest)

/-- Read a JSON integer token: optional minus, digits, no leading zeros. -/
def takeIntTok (cs : List Char) : Option (Int × List Char) :=
  let digitsOf : List Char → Option (Nat × List Char) := fun l =>
    let ds := l.takeWhile Char.isDigit
    let rest := l.dropWhile Char.isDigit
    if ds = [] then none
    else if ds.head? = some '0' ∧ ds.length ≠ 1 then none
    else some (ds.foldl (fun n c => 10 * n + (c.toNat - 48)) 0, rest)
  match cs with
  | '-' :: t =>
    match digitsOf t with
    | none => none
    | some (n, rest) => some (-(Int.ofNat n), rest)
  | _ =>
    match digitsOf cs with
    | none => none
    | some (n, rest) => some (Int.ofNat n, rest)

/-- Parse the members of a calendar object after the opening brace; returns
the key-value list in textual order and the characters after the closing
brace. -/
def parseMembers : Nat → List Char → List (String × Int) →
    Option (List (String × Int) × List Char)
  | 0, _, _ => none
  | fuel + 1, cs, acc =>
    match cs with
    | c :: cs1 =>
      if c = dquote then
        match takeStr cs1 with
        | none => none
        | some (kcs, cs2) =>
          match skipWs cs2 with
          | ':' :: cs3 =>
            match takeIntTok (skipWs cs3) with
            | none => none
            | some (v, cs4) =>
              match skipWs cs4 with
              | d :: cs5 =>
                if d = ',' then
                  parseMembers fuel (skipWs cs5) (acc ++ [(String.mk kcs, v)])
                else if d = rbrace then some (acc ++ [(String.mk kcs, v)], cs5)
                else none
              | [] => none
          | _ => none
      else none
    | [] => none

/-- CPython dict construction from parsed members: last duplicate wins,
first position kept. -/
def dictOf (kvs : List (String × Int)) : List (String × Int) :=
  kvs.foldl (fun m kv => aset m kv.1 kv.2) []

/-- `json.loads` applied to the submission-calendar value (src/main.py
lines 218-221).  A non-string value raises `TypeError` as `json.loads`
does; a malformed document raises a decode error. -/
def pyLoadsCalendar : Json → Except String (List (String × Int))
  | .str s =>
    (match skipWs s.data with
    | c :: rest =>
      if c = lbrace then
        match skipWs rest with
        | d :: tail =>
          if d = rbrace then
            if (skipWs tail).isEmpty then .ok [] else .error "Extra data"
          else
            match parseMembers (s.length + 1) (d :: tail) [] with
            | none => .error "Expecting value in submission calendar"
            | some (kvs, tail2) =>
              if (skipWs tail2).isEmpty then .ok (dictOf kvs)
              else .error "Extra data"
        | [] => .error "Expecting property name"
      else .error "Expecting value"
    | [] => .error "Expecting value")
  | _ => .error "the JSON object must be str, bytes or bytearray"

/-! ## Problem statistics (src/main.py lines 227-243) -/

/-- The initial problems dict: all three tiers at solved 0, total 0
(src/main.py lines 227-231).  Each value is the pair (solved, total); the
components are `Json` because Python would store whatever value the payload
carries. -/
def problems0 : List (String × Json × Json) :=
  [("easy", Json.num 0, Json.num 0),
   ("medium", Json.num 0, Json.num 0),
   ("hard", Json.num 0, Json.num 0)]

/-- One iteration of the total-questions loop (src/main.py lines 234-237):
lower-case the difficulty name, and overwrite `total` only when it is one
of the three tier keys. -/
def applyTotal (p : List (String × Json × Json)) (q : Json) :
    Except String (List (String × Json × Json)) :=
  match pySubscript q "difficulty" with
  | .error e => .error e
  | .ok dv =>
    match pyLower dv with
    | .error e => .error e
    | .ok d =>
      if containsKey p d then
        match pySubscript q "count" with
        | .error e => .error e
        | .ok cv =>
          let old := (alookup p d).getD (Json.num 0, Json.num 0)
          .ok (aset p d (old.1, cv))
      else .ok p

/-- One iteration of the solved-questions loop (src/main.py lines 240-243):
same matching rule, overwriting `solved`. -/
def applySolved (p : List (String × Json × Json)) (q : Json) :
    Except String (List (String × Json × Json)) :=
  match pySubscript q "difficulty" with
  | .error e => .error e
  | .ok dv =>
    match pyLower dv with
    | .error e => .error e
    | .ok d =>
      if containsKey p d then
        match pySubscript q "count" with
        | .error e => .error e
        | .ok cv =>
          let old := (alookup p d).getD (Json.num 0, Json.num 0)
          .ok (aset p d (cv, old.2))
      else .ok p

/-- Build the problems dict (src/main.py lines 227-243): totals from the
global question counts, then solved counts from
`user_data["submitStats"]["acSubmissionNum"]`, in source order. -/
def buildProblems (allQuestions mu : Json) :
    Except String (List (String × Json × Json)) :=
  match pyIter allQuestions with
  | .error e => .error e
  | .ok qs =>
    match foldE applyTotal problems0 qs with
    | .error e => .error e
    | .ok p1 =>
      match pySubscript mu "submitStats" with
      | .error e => .error e
      | .ok ss =>
        match pySubscript ss "acSubmissionNum" with
        | .error e => .error e
        | .ok ac =>
          match pyIter ac with
          | .error e => .error e
          | .ok subs => foldE applySolved p1 subs

/-! ## Response assembly (src/main.py lines 199-268) -/

/-- The safety checks of src/main.py lines 200-209, with Python
short-circuit evaluation: `ok none` means the compound condition held (the
specific error object is returned), `ok (some (dd, mu))` carries
`data["data"]` and the matched user. -/
def matchedUserOf (data : Json) : Except String (Option (Json × Json)) :=
  match pyIn "data" data with
  | .error e => .error e
  | .ok containsData =>
    if !containsData then .ok none
    else
      match pySubscript data "data" with
      | .error e => .error e
      | .ok dd =>
        if pyFalsy dd then .ok none
        else
          match pySubscript dd "matchedUser" with
          | .error e => .error e
          | .ok mu =>
            match mu with
            | .null => .ok none
            | _ => .ok (some (dd, mu))

/-- The flat identity fields of the response dict, in source order: output
key, payload key, default (src/main.py lines 247-250). -/
def muFieldSpecs : List (String × String × Json) :=
  [("username", "username", Json.null),
   ("github", "githubUrl", Json.null),
   ("twitter", "twitterUrl", Json.null),
   ("linkedin", "linkedinUrl", Json.null)]

/-- The profile-derived fields of the response dict, in source order
(src/main.py lines 251-259). -/
def profileFieldSpecs : List (String × String × Json) :=
  [("ranking", "ranking", Json.null),
   ("realname", "realName", Json.null),
   ("aboutme", "aboutMe", Json.null),
   ("school", "school", Json.null),
   ("website", "websites", Json.arr []),
   ("country_name", "countryName", Json.null),
   ("company", "company", Json.null),
   ("job_title", "jobTitle", Json.null),
   ("skill", "skillTags", Json.arr [])]

/-- Evaluate a list of `.get` field reads against one source object,
propagating the first raised error. -/
def getFields (src : Json) : List (String × String × Json) →
    Except String (List (String × Json))
  | [] => .ok []
  | (outKey, srcKey, dflt) :: t =>
    match pyGet src srcKey dflt with
    | .error e => .error e
    | .ok v =>
      match getFields src t with
      | .error e => .error e
      | .ok rest => .ok ((outKey, v) :: rest)

/-- Serialize one bucket as the response does: daily map keyed by
`date.isoformat()`, then the total. -/
def bucketJson (b : Bucket) : Json :=
  Json.obj [("daily", Json.obj (b.daily.map (fun e => (isoformat e.1, Json.num e.2)))),
            ("total", Json.num b.total)]

/-- The `progress` component of the response. -/
def progressJson (ps : List (String × Bucket)) : Json :=
  Json.obj (ps.map (fun e => (e.1, bucketJson e.2)))

/-- The `problem` component of the response: solved first, then total,
matching the dict-literal order of src/main.py lines 227-231. -/
def problemsJson (ps : List (String × Json × Json)) : Json :=
  Json.obj (ps.map (fun e => (e.1, Json.obj [("solved", e.2.1), ("total", e.2.2)])))

/-- Steps 3 to 6 of the pipeline (src/main.py lines 211-262): extract the
sub-objects, parse and aggregate the calendar, build the problem stats and
the final flat response object, in exact source evaluation order. -/
def assembleProfile (dd mu : Json) (todayZ : Int) : Except String Json :=
  match pySubscript dd "allQuestionsCount" with
  | .error e => .error e
  | .ok allQuestions =>
    match pyGet mu "profile" (Json.obj []) with
    | .error e => .error e
    | .ok profile =>
      match pySubscript mu "userCalendar" with
      | .error e => .error e
      | .ok uc =>
        match pySubscript uc "submissionCalendar" with
        | .error e => .error e
        | .ok scv =>
          match pyLoadsCalendar scv with
          | .error e => .error e
          | .ok cal =>
            match process_progress_by_year cal todayZ with
            | .error e => .error e
            | .ok progress =>
              match buildProblems allQuestions mu with
              | .error e => .error e
              | .ok problems =>
                match getFields mu muFieldSpecs with
                | .error e => .error e
                | .ok idFields =>
                  match getFields profile profileFieldSpecs with
                  | .error e => .error e
                  | .ok profFields =>
                    .ok (Json.obj (idFields ++ profFields ++
                      [("progress", progressJson progress),
                       ("problem", problemsJson problems)]))

/-! ## The request handler `get_user_data` -/

/-- Cache entries: key, stored value, remaining TTL.  The source stores
`json.dumps(result)` and decodes with `json.loads`; those are mutually
inverse on this JSON data model, so the stored value is kept as `Json`. -/
abbrev CacheEntries := List (String × Json × Nat)

/-- The Redis connection as seen by one request: its entries plus transient
availability of the two commands the handler issues.  A failing command
raises `redis.exceptions.ConnectionError`, which the handler's try/except
catches. -/
structure CacheState where
  getFails : Bool
  setFails : Bool
  entries : CacheEntries

/-- The outcome of one request: the JSON body returned, the cache entries
afterwards, and whether the upstream client was invoked (the call-count
observable of the spec's cache round-trip property). -/
structure HandleOutcome where
  response : Json
  entries : CacheEntries
  upstreamCalled : Bool
deriving Repr

def cacheKey (username : String) : String := "leetcode_user:" ++ username

def redisErrMsg : String := "Error connecting to Redis"

/-- The specific error object of src/main.py lines 205-209. -/
def fetchErrorJson : Json :=
  Json.obj [("error",
    Json.str "Could not fetch user data. Maybe invalid username or blocked request.")]

/-- The catch-all error object of src/main.py line 271. -/
def genericError (msg : String) : Json :=
  Json.obj [("error", Json.str ("An error occurred: " ++ msg))]

/-- The body of the try block of `get_user_data` (src/main.py lines
190-268).  `upstream` is the outcome of `get_user_profile(username)`: the
parsed payload, or the message of the transport/parse exception it raised.
An error result carries the exception message and whether upstream had been
called; the cache entries are unchanged on every raising path because the
only cache write is the final `setex`, after which nothing can raise. -/
def get_user_data_try (username : String) (cache : CacheState)
    (upstream : Except String Json) (todayZ : Int) :
    Except (String × Bool) (Json × CacheEntries × Bool) :=
  if cache.getFails then .error (redisErrMsg, false)
  else
    match alookup cache.entries (cacheKey username) with
    | some v => .ok (v.1, cache.entries, false)
    | none =>
      match upstream with
      | .error e => .error (e, true)
      | .ok data =>
        match matchedUserOf data with
        | .error e => .error (e, true)
        | .ok none => .ok (fetchErrorJson, cache.entries, true)
        | .ok (some (dd, mu)) =>
          match assembleProfile dd mu todayZ with
          | .error e => .error (e, true)
          | .ok result =>
            if cache.setFails then .error (redisErrMsg, true)
            else .ok (result,
              aset cache.entries (cacheKey username) (result, 3600), true)

/-- `get_user_data` (src/main.py lines 186-271): run the try block and
convert any raised exception at the single boundary into the generic error
object, leaving the cache entries as they were. -/
def get_user_data (username : String) (cache : CacheState)
    (upstream : Except String Json) (todayZ : Int) : HandleOutcome :=
  match get_user_data_try username cache upstream todayZ with
  | .ok (resp, es, called) => ⟨resp, es, called⟩
  | .error (msg, called) => ⟨genericError msg, cache.entries, called⟩

/-! ## Derived quantities used by the claim statements -/

/-- Sum of the values of a daily map. -/
def sumVals (l : List (Date × Int)) : Int := (l.map (fun e => e.2)).sum

/-- Sum of the raw input counts of a calendar. -/
def rawSum (cal : List (String × Int)) : Int := (cal.map (fun e => e.2)).sum

/-- The calendar day an input entry lands on, when its key parses. -/
def entryDate (e : String × Int) : Option Date :=
  match pyInt e.1 with
  | .ok ts => some (tsToDate ts)
  | .error _ => none

/-- Whether an input entry lands inside the trailing window. -/
def entryInWindow (todayZ : Int) (e : String × Int) : Bool :=
  match entryDate e with
  | some d => inWindow todayZ d
  | none => false

/-- Sum of the counts of the in-window entries of a calendar. -/
def winSum (todayZ : Int) (cal : List (String × Int)) : Int :=
  ((cal.filter (entryInWindow todayZ)).map (fun e => e.2)).sum

/-- Sum of the totals of the per-year buckets. -/
def sumTotals (yearly : List (Int × Bucket)) : Int :=
  (yearly.map (fun yb => yb.2.total)).sum

/-- Every date currently appearing as a daily key anywhere in the
aggregation state. -/
def dailyDates (st : AggState) : List Date :=
  (st.yearly.map (fun yb => yb.2.daily.map Prod.fst)).flatten ++
    st.current.daily.map Prod.fst

/-- First key of a JSON object: distinguishes a profile response (first
key "username") from an error object (first key "error"). -/
def firstKey : Json → Option String
  | .obj kvs => kvs.head?.map Prod.fst
  | _ => none

/-- The compound condition of src/main.py lines 200-204 spelled out over
the primitive Python operations, with short-circuit evaluation: the payload
has no "data" key, or its "data" value is falsy, or its matched user is
null. -/
def lacksMatchedUser (data : Json) : Prop :=
  pyIn "data" data = .ok false ∨
  (pyIn "data" data = .ok true ∧ ∃ dd, pySubscript data "data" = .ok dd ∧
    (pyFalsy dd = true ∨
      (pyFalsy dd = false ∧ pySubscript dd "matchedUser" = .ok Json.null)))

/-- The lower-cased difficulty name of a question-stat entry, when it is a
string. -/
def difficultyOf (q : Json) : Option String :=
  match pySubscript q "difficulty" with
  | .ok (Json.str d) => some (lowerStr d)
  | _ => none

/-- The count field of a question-stat entry, when present. -/
def countOf (q : Json) : Option Json :=
  match pySubscript q "count" with
  | .ok c => some c
  | .error _ => none

/-- The count of the last entry of `qs` whose lower-cased difficulty is
`tier` (the value left in place by an overwrite-in-order loop). -/
def lastTierCount (qs : List Json) (tier : String) : Option Json :=
  ((qs.filter (fun q => difficultyOf q = some tier)).filterMap countOf).getLast?

/-- Lookup with the zero-stats default. -/
def alookupD (p : List (String × Json × Json)) (k : String) : Json × Json :=
  (alookup p k).getD (Json.num 0, Json.num 0)

/-! ## Concrete payloads used by witnesses and counterexamples -/

/-- A complete, well-formed upstream payload. -/
def okPayload : Json :=
  Json.obj [("data", Json.obj [
    ("matchedUser", Json.obj [
      ("username", Json.str "alice"),
      ("githubUrl", Json.str "https://github.com/alice"),
      ("profile", Json.obj [
        ("realName", Json.str "Alice"),
        ("ranking", Json.num 42),
        ("websites", Json.arr [Json.str "a.example"]),
        ("skillTags", Json.arr [Json.str "dp"])]),
      ("submitStats", Json.obj [("acSubmissionNum", Json.arr [
        Json.obj [("difficulty", Json.str "All"), ("count", Json.num 10)],
        Json.obj [("difficulty", Json.str "Easy"), ("count", Json.num 5)],
        Json.obj [("difficulty", Json.str "Medium"), ("count", Json.num 4)],
        Json.obj [("difficulty", Json.str "Hard"), ("count", Json.num 1)]])]),
      ("userCalendar", Json.obj [
        ("submissionCalendar",
         Json.str "\x7b\x221700000000\x22: 3, \x221732000000\x22: 2\x7d")])]),
    ("allQuestionsCount", Json.arr [
      Json.obj [("difficulty", Json.str "All"), ("count", Json.num 3000)],
      Json.obj [("difficulty", Json.str "Easy"), ("count", Json.num 800)],
      Json.obj [("difficulty", Json.str "Medium"), ("count", Json.num 1600)],
      Json.obj [("difficulty", Json.str "Hard"), ("count", Json.num 600)]])])]

/-- A payload whose matched user is present but whose submission-calendar
string is not valid JSON. -/
def badCalPayload : Json :=
  Json.obj [("data", Json.obj [
    ("matchedUser", Json.obj [
      ("userCalendar", Json.obj [("submissionCalendar", Json.str "not json")]),
      ("submitStats", Json.obj [("acSubmissionNum", Json.arr [])])]),
    ("allQuestionsCount", Json.arr [])])]

/-- A payload whose matched user lacks the userCalendar field. -/
def noCalendarPayload : Json :=
  Json.obj [("data", Json.obj [
    ("matchedUser", Json.obj [("username", Json.str "u")]),
    ("allQuestionsCount", Json.arr [])])]

/-- A payload whose matched user lacks the submitStats field. -/
def noSubmitStatsPayload : Json :=
  Json.obj [("data", Json.obj [
    ("matchedUser", Json.obj [
      ("userCalendar", Json.obj [("submissionCalendar", Json.str "\x7b\x7d")])]),
    ("allQuestionsCount", Json.arr [])])]

/-- A payload carrying only the fields the pipeline requires; every
optional field is absent. -/
def minimalPayload : Json :=
  Json.obj [("data", Json.obj [
    ("matchedUser", Json.obj [
      ("userCalendar", Json.obj [("submissionCalendar", Json.str "\x7b\x7d")]),
      ("submitStats", Json.obj [("acSubmissionNum", Json.arr [])])]),
    ("allQuestionsCount", Json.arr [])])]

/-- The response assembled from `minimalPayload`: every optional field at
its null or empty-collection default. -/
def minimalProfile : Json :=
  Json.obj [("username", Json.null), ("github", Json.null),
    ("twitter", Json.null), ("linkedin", Json.null), ("ranking", Json.null),
    ("realname", Json.null), ("aboutme", Json.null), ("school", Json.null),
    ("website", Json.arr []), ("country_name", Json.null),
    ("company", Json.null), ("job_title", Json.null),
    ("skill", Json.arr []),
    ("progress", Json.obj [("current", Json.obj [
      ("daily", Json.obj []), ("total", Json.num 0)])]),
    ("problem", Json.obj [
      ("easy", Json.obj [("solved", Json.num 0), ("total", Json.num 0)]),
      ("medium", Json.obj [("solved", Json.num 0), ("total", Json.num 0)]),
      ("hard", Json.obj [("solved", Json.num 0), ("total", Json.num 0)])])]

/-- A payload whose matched user is null. -/
def nullUserPayload : Json :=
  Json.obj [("data", Json.obj [("matchedUser", Json.null)])]

/-- The response assembled from `okPayload` with the clock at epoch day
20046 (2024-11-19 UTC). -/
def aliceProfile : Json :=
  Json.obj [("username", Json.str "alice"),
    ("github", Json.str "https://github.com/alice"),
    ("twitter", Json.null), ("linkedin", Json.null),
    ("ranking", Json.num 42), ("realname", Json.str "Alice"),
    ("aboutme", Json.null), ("school", Json.null),
    ("website", Json.arr [Json.str "a.example"]),
    ("country_name", Json.null), ("company", Json.null),
    ("job_title", Json.null), ("skill", Json.arr [Json.str "dp"]),
    ("progress", Json.obj [
      ("current", Json.obj [
        ("daily", Json.obj [("2024-11-19", Json.num 2)]),
        ("total", Json.num 2)]),
      ("2024", Json.obj [
        ("daily", Json.obj [("2024-11-19", Json.num 2)]),
        ("total", Json.num 2)]),
      ("2023", Json.obj [
        ("daily", Json.obj [("2023-11-14", Json.num 3)]),
        ("total", Json.num 3)])]),
    ("problem", Json.obj [
      ("easy", Json.obj [("solved", Json.num 5), ("total", Json.num 800)]),
      ("medium", Json.obj [("solved", Json.num 4), ("total", Json.num 1600)]),
      ("hard", Json.obj [("solved", Json.num 1), ("total", Json.num 600)])])]

/-- The cache contents after the successful `okPayload` miss-path run. -/
def aliceEntries : CacheEntries := [("leetcode_user:alice", aliceProfile, 3600)]

/-! ## Lemmas about association lists -/

theorem alookup_aset_self {α β : Type} [DecidableEq α] (m : List (α × β))
    (k : α) (v : β) : alookup (aset m k v) k = some v := by
  induction m with
  | nil => simp [aset, alookup]
  | cons kv t ih =>
    obtain ⟨k2, v2⟩ := kv
    by_cases h : k2 = k
    · simp [aset, alookup, h]
    · simp [aset, alookup, h, ih]

theorem alookup_aset_ne {α β : Type} [DecidableEq α] (m : List (α × β))
    (k a : α) (v : β) (h : k ≠ a) :
    alookup (aset m k v) a = alookup m a := by
  induction m with
  | nil => simp [aset, alookup, h]
  | cons kv t ih =>
    obtain ⟨k2, v2⟩ := kv
    by_cases h2 : k2 = k
    · subst h2
      simp [aset, alookup, h]
    · simp only [aset, if_neg h2, alookup]
      by_cases h3 : k2 = a
      · simp [h3]
      · simp [h3, ih]

theorem mem_keys_aset {α β : Type} [DecidableEq α] (m : List (α × β))
    (k a : α) (v : β) :
    a ∈ (aset m k v).map Prod.fst ↔ a = k ∨ a ∈ m.map Prod.fst := by
  induction m with
  | nil => simp [aset]
  | cons kv t ih =>
    obtain ⟨k2, v2⟩ := kv
    by_cases h : k2 = k
    · subst h
      simp [aset]
    · simp only [aset, if_neg h, List.map_cons, List.mem_cons, ih]
      tauto

theorem keys_aset_nodup {α β : Type} [DecidableEq α] (m : List (α × β))
    (k : α) (v : β) (h : (m.map Prod.fst).Nodup) :
    ((aset m k v).map Prod.fst).Nodup := by
  induction m with
  | nil => simp [aset]
  | cons kv t ih =>
    obtain ⟨k2, v2⟩ := kv
    simp only [List.map_cons, List.nodup_cons] at h
    by_cases h2 : k2 = k
    · subst h2
      simpa [aset] using h
    · simp only [aset, if_neg h2, List.map_cons, List.nodup_cons]
      refine ⟨fun hmem => ?_, ih h.2⟩
      rw [mem_keys_aset] at hmem
      rcases hmem with h3 | h3
      · exact h2 h3
      · exact h.1 h3

theorem aset_of_not_mem {α β : Type} [DecidableEq α] (m : List (α × β))
    (k : α) (v : β) (h : k ∉ m.map Prod.fst) :
    aset m k v = m ++ [(k, v)] := by
  induction m with
  | nil => simp [aset]
  | cons kv t ih =>
    obtain ⟨k2, v2⟩ := kv
    simp only [List.map_cons, List.mem_cons] at h
    push_neg at h
    have hne : ¬k2 = k := fun hk => h.1 hk.symm
    simp [aset, hne, ih h.2]

theorem alookup_mem {α β : Type} [DecidableEq α] (m : List (α × β))
    (a : α) (b : β) (h : alookup m a = some b) : (a, b) ∈ m := by
  induction m with
  | nil => simp [alookup] at h
  | cons kv t ih =>
    obtain ⟨k2, v2⟩ := kv
    simp only [alookup] at h
    split at h
    next h2 =>
      injection h with h3
      subst h2
      subst h3
      exact List.mem_cons_self _ _
    next h2 =>
      exact List.mem_cons_of_mem _ (ih h)

theorem alookup_eq_none {α β : Type} [DecidableEq α] (m : List (α × β))
    (a : α) : alookup m a = none ↔ a ∉ m.map Prod.fst := by
  induction m with
  | nil => simp [alookup]
  | cons kv t ih =>
    obtain ⟨k2, v2⟩ := kv
    by_cases h2 : k2 = a
    · subst h2
      simp [alookup]
    · simp [alookup, h2, ih, Ne.symm h2]

theorem alookup_isSome {α β : Type} [DecidableEq α] (m : List (α × β))
    (a : α) : a ∈ m.map Prod.fst ↔ ∃ b, alookup m a = some b := by
  constructor
  · intro h
    cases hl : alookup m a with
    | none => exact absurd ((alookup_eq_none m a).mp hl) (by simp [h])
    | some b => exact ⟨b, rfl⟩
  · rintro ⟨b, hb⟩
    by_contra hmem
    rw [← alookup_eq_none] at hmem
    simp [hmem] at hb

theorem map_keys_lookup {α β : Type} [DecidableEq α] (m : List (α × β))
    (d0 : β) (hnd : (m.map Prod.fst).Nodup) :
    (m.map Prod.fst).map (fun k => (alookup m k).getD d0) = m.map Prod.snd := by
  induction m with
  | nil => simp
  | cons kv t ih =>
    obtain ⟨k2, v2⟩ := kv
    simp only [List.map_cons, List.nodup_cons] at hnd
    simp only [List.map_cons, List.cons.injEq]
    constructor
    · simp [alookup]
    · rw [← ih hnd.2]
      apply List.map_congr_left
      intro a ha
      have hne : ¬k2 = a := fun h => hnd.1 (h ▸ ha)
      simp [alookup, hne]

/-! ## Lemmas about the descending sort -/

theorem insertDesc_perm (x : Int) (l : List Int) :
    (insertDesc x l).Perm (x :: l) := by
  induction l with
  | nil => simp [insertDesc]
  | cons y ys ih =>
    by_cases h : y ≤ x
    · simp [insertDesc, h]
    · simp only [insertDesc, if_neg h]
      exact (ih.cons y).trans (List.Perm.swap x y ys)

theorem sortDesc_perm (l : List Int) : (sortDesc l).Perm l := by
  induction l with
  | nil => simp [sortDesc]
  | cons x xs ih =>
    simp only [sortDesc, List.foldr_cons]
    exact (insertDesc_perm x _).trans (ih.cons x)

theorem insertDesc_sorted (x : Int) (l : List Int)
    (h : l.Pairwise (fun a b => b ≤ a)) :
    (insertDesc x l).Pairwise (fun a b => b ≤ a) := by
  induction l with
  | nil => simp [insertDesc]
  | cons y ys ih =>
    rcases List.pairwise_cons.mp h with ⟨hy, hys⟩
    by_cases hle : y ≤ x
    · simp only [insertDesc, if_pos hle]
      refine List.pairwise_cons.mpr ⟨?_, h⟩
      intro a ha
      rcases List.mem_cons.mp ha with rfl | ha
      · exact hle
      · exact le_trans (hy a ha) hle
    · simp only [insertDesc, if_neg hle]
      refine List.pairwise_cons.mpr ⟨?_, ih hys⟩
      intro a ha
      have := (insertDesc_perm x ys).mem_iff.mp ha
      rcases List.mem_cons.mp this with rfl | ha2
      · exact le_of_not_le hle
      · exact hy a ha2

theorem sortDesc_sorted (l : List Int) :
    (sortDesc l).Pairwise (fun a b => b ≤ a) := by
  induction l with
  | nil => simp [sortDesc]
  | cons x xs ih =>
    exact insertDesc_sorted x _ ih

/-! ## Lemmas about the fold through `Except` -/

theorem foldE_ok_cons {σ α ε : Type} (f : σ → α → Except ε σ) (s s2 : σ)
    (a : α) (l : List α) :
    foldE f s (a :: l) = .ok s2 ↔
      ∃ s1, f s a = .ok s1 ∧ foldE f s1 l = .ok s2 := by
  cases h : f s a with
  | error e => simp [foldE, h]
  | ok s1 => simp [foldE, h]

/-! ## Inversion of one aggregation step -/

theorem processEntry_ok (todayZ : Int) (st st2 : AggState) (e : String × Int)
    (h : processEntry todayZ st e = .ok st2) :
    ∃ d, entryDate e = some d ∧ 1 ≤ d.year ∧ d.year ≤ 9999 ∧
      st2 = ⟨aset st.yearly d.year
        ⟨aset ((alookup st.yearly d.year).getD emptyBucket).daily d e.2,
         ((alookup st.yearly d.year).getD emptyBucket).total + e.2⟩,
        if inWindow todayZ d then
          (⟨aset st.current.daily d e.2, st.current.total + e.2⟩ : Bucket)
        else st.current⟩ := by
  cases hp : pyInt e.1 with
  | error msg =>
    rw [processEntry, hp] at h
    exact absurd h (by simp)
  | ok ts =>
    rw [processEntry, hp] at h
    simp only at h
    split at h
    · exact absurd h (by simp)
    next hrange =>
      refine ⟨tsToDate ts, by simp [entryDate, hp], ?_, ?_, ?_⟩
      · push_neg at hrange
        omega
      · push_neg at hrange
        omega
      · injection h with h2
        exact h2.symm

/-! ## Fold invariant for the current bucket (claim C2) -/

theorem fold_current (todayZ : Int) (cal : List (String × Int))
    (st st2 : AggState)
    (h : foldE (processEntry todayZ) st cal = .ok st2) :
    (∀ d : Date, d ∈ st2.current.daily.map Prod.fst ↔
        d ∈ st.current.daily.map Prod.fst ∨
        ∃ e ∈ cal, entryDate e = some d ∧ inWindow todayZ d = true) ∧
    st2.current.total = st.current.total + winSum todayZ cal := by
  induction cal generalizing st with
  | nil =>
    simp only [foldE, Except.ok.injEq] at h
    subst h
    simp [winSum]
  | cons a l ih =>
    rw [foldE_ok_cons] at h
    obtain ⟨s1, ha, hl⟩ := h
    obtain ⟨d0, hd0, _, _, hs1⟩ := processEntry_ok todayZ st s1 a ha
    obtain ⟨ihmem, ihtot⟩ := ih s1 hl
    subst hs1
    by_cases hw : inWindow todayZ d0 = true
    · rw [if_pos hw] at ihmem ihtot
      constructor
      · intro d
        rw [ihmem d]
        simp only [mem_keys_aset, List.mem_cons]
        constructor
        · rintro ((rfl | hmem) | ⟨e2, he2, hde, hwe⟩)
          · exact Or.inr ⟨a, Or.inl rfl, hd0, hw⟩
          · exact Or.inl hmem
          · exact Or.inr ⟨e2, Or.inr he2, hde, hwe⟩
        · rintro (hmem | ⟨e2, he2 | he2, hde, hwe⟩)
          · exact Or.inl (Or.inr hmem)
          · subst he2
            rw [hd0] at hde
            injection hde with hde
            exact Or.inl (Or.inl hde.symm)
          · exact Or.inr ⟨e2, he2, hde, hwe⟩
      · rw [ihtot]
        have hins : entryInWindow todayZ a = true := by
          simp [entryInWindow, hd0, hw]
        simp only [winSum, List.filter_cons, hins, if_pos, List.map_cons,
          List.sum_cons]
        omega
    · have hwf : inWindow todayZ d0 = false := by
        cases hww : inWindow todayZ d0
        · rfl
        · exact absurd hww hw
      rw [if_neg hw] at ihmem ihtot
      constructor
      · intro d
        rw [ihmem d]
        constructor
        · rintro (hmem | ⟨e2, he2, hde, hwe⟩)
          · exact Or.inl hmem
          · exact Or.inr ⟨e2, List.mem_cons_of_mem a he2, hde, hwe⟩
        · rintro (hmem | ⟨e2, he2, hde, hwe⟩)
          · exact Or.inl hmem
          · rcases List.mem_cons.mp he2 with rfl | he2
            · rw [hd0] at hde
              injection hde with hde
              subst hde
              exact absurd hwe hw
            · exact Or.inr ⟨e2, he2, hde, hwe⟩
      · rw [ihtot]
        have hins : entryInWindow todayZ a = false := by
          simp [entryInWindow, hd0, hwf]
        simp only [winSum, List.filter_cons, hins]
        simp [winSum]

theorem mem_aset {α β : Type} [DecidableEq α] (m : List (α × β)) (k : α)
    (v : β) (p : α × β) (h : p ∈ aset m k v) : p = (k, v) ∨ p ∈ m := by
  induction m with
  | nil => simpa [aset] using h
  | cons kv t ih =>
    obtain ⟨k2, v2⟩ := kv
    by_cases h2 : k2 = k
    · subst h2
      have hstep : aset ((k2, v2) :: t) k2 v = (k2, v) :: t := by
        simp [aset]
      rw [hstep] at h
      rcases List.mem_cons.mp h with h | h
      · exact Or.inl h
      · exact Or.inr (List.mem_cons_of_mem _ h)
    · have hstep : aset ((k2, v2) :: t) k v = (k2, v2) :: aset t k v := by
        simp [aset, h2]
      rw [hstep] at h
      rcases List.mem_cons.mp h with h | h
      · exact Or.inr (h ▸ List.mem_cons_self _ _)
      · rcases ih h with h3 | h3
        · exact Or.inl h3
        · exact Or.inr (List.mem_cons_of_mem _ h3)

/-- Updating a year bucket with a total increased by `c` increases the sum
of all year totals by `c`. -/
theorem sumTotals_aset (m : List (Int × Bucket)) (y : Int)
    (daily2 : List (Date × Int)) (c : Int) :
    sumTotals (aset m y ⟨daily2, ((alookup m y).getD emptyBucket).total + c⟩) =
      sumTotals m + c := by
  induction m with
  | nil => simp [aset, alookup, sumTotals, emptyBucket]
  | cons kb t ih =>
    obtain ⟨k, b⟩ := kb
    by_cases h2 : k = y
    · subst h2
      have hlk : alookup ((k, b) :: t) k = some b := by simp [alookup]
      rw [hlk, Option.getD_some]
      have hstep : aset ((k, b) :: t) k (⟨daily2, b.total + c⟩ : Bucket) =
          (k, (⟨daily2, b.total + c⟩ : Bucket)) :: t := by
        simp [aset]
      rw [hstep]
      simp only [sumTotals, List.map_cons, List.sum_cons]
      omega
    · have hlk : alookup ((k, b) :: t) y = alookup t y := by
        simp [alookup, h2]
      rw [hlk]
      have hstep : aset ((k, b) :: t) y
          (⟨daily2, ((alookup t y).getD emptyBucket).total + c⟩ : Bucket) =
          (k, b) :: aset t y
            (⟨daily2, ((alookup t y).getD emptyBucket).total + c⟩ : Bucket) := by
        simp [aset, h2]
      rw [hstep]
      have := ih
      simp only [sumTotals, List.map_cons, List.sum_cons] at this ⊢
      omega

theorem current_keys_sub (st : AggState) (d : Date)
    (h : d ∈ st.current.daily.map Prod.fst) : d ∈ dailyDates st := by
  simp only [dailyDates, List.mem_append]
  exact Or.inr h

theorem yearly_keys_sub (st : AggState) (y : Int) (b : Bucket)
    (hb : alookup st.yearly y = some b) (d : Date)
    (h : d ∈ b.daily.map Prod.fst) : d ∈ dailyDates st := by
  simp only [dailyDates, List.mem_append, List.mem_flatten]
  exact Or.inl ⟨b.daily.map Prod.fst, List.mem_map_of_mem _ (alookup_mem _ _ _ hb), h⟩

/-- Every daily key after one aggregation step was already a daily key or
is the date of the processed entry. -/
theorem dailyDates_step (todayZ : Int) (st st2 : AggState) (e : String × Int)
    (h : processEntry todayZ st e = .ok st2) (d : Date)
    (hd : d ∈ dailyDates st2) : d ∈ dailyDates st ∨ entryDate e = some d := by
  obtain ⟨d0, hd0, _, _, hs2⟩ := processEntry_ok todayZ st st2 e h
  subst hs2
  simp only [dailyDates, List.mem_append, List.mem_flatten] at hd
  rcases hd with ⟨l, hl, hdl⟩ | hd
  · simp only [List.mem_map] at hl
    obtain ⟨yb, hyb, rfl⟩ := hl
    rcases mem_aset _ _ _ _ hyb with rfl | hyb2
    · simp only at hdl
      rw [mem_keys_aset] at hdl
      rcases hdl with rfl | hdl
      · exact Or.inr hd0
      · cases hlook : alookup st.yearly d0.year with
        | none => rw [hlook] at hdl; simp [emptyBucket] at hdl
        | some b =>
          rw [hlook] at hdl
          exact Or.inl (yearly_keys_sub st _ b hlook d hdl)
    · exact Or.inl (by
        simp only [dailyDates, List.mem_append, List.mem_flatten]
        exact Or.inl ⟨yb.2.daily.map Prod.fst, List.mem_map_of_mem _ hyb2, hdl⟩)
  · by_cases hw : inWindow todayZ d0 = true
    · rw [if_pos hw] at hd
      simp only at hd
      rw [mem_keys_aset] at hd
      rcases hd with rfl | hd
      · exact Or.inr hd0
      · exact Or.inl (current_keys_sub st d hd)
    · rw [if_neg hw] at hd
      exact Or.inl (current_keys_sub st d hd)

/-- Fold invariant for the year keys: after aggregating, the set of year
keys is the set of calendar years of the processed entries, and it stays
duplicate-free. -/
theorem fold_yearly_keys (todayZ : Int) (cal : List (String × Int))
    (st st2 : AggState)
    (h : foldE (processEntry todayZ) st cal = .ok st2)
    (hnd : (st.yearly.map Prod.fst).Nodup) :
    (st2.yearly.map Prod.fst).Nodup ∧
    (∀ y, y ∈ st2.yearly.map Prod.fst ↔ y ∈ st.yearly.map Prod.fst ∨
      ∃ e ∈ cal, ∃ d, entryDate e = some d ∧ d.year = y) := by
  induction cal generalizing st with
  | nil =>
    simp only [foldE, Except.ok.injEq] at h
    subst h
    exact ⟨hnd, fun y => by simp⟩
  | cons a l ih =>
    rw [foldE_ok_cons] at h
    obtain ⟨s1, ha, hl⟩ := h
    obtain ⟨d0, hd0, _, _, hs1⟩ := processEntry_ok todayZ st s1 a ha
    subst hs1
    obtain ⟨ihnd, ihmem⟩ := ih _ hl (keys_aset_nodup _ _ _ hnd)
    refine ⟨ihnd, fun y => ?_⟩
    rw [ihmem y]
    simp only [mem_keys_aset, List.mem_cons]
    constructor
    · rintro ((rfl | hy) | ⟨e2, he2, d2, hde2, hy2⟩)
      · exact Or.inr ⟨a, Or.inl rfl, d0, hd0, rfl⟩
      · exact Or.inl hy
      · exact Or.inr ⟨e2, Or.inr he2, d2, hde2, hy2⟩
    · rintro (hy | ⟨e2, he2 | he2, d2, hde2, hy2⟩)
      · exact Or.inl (Or.inr hy)
      · subst he2
        rw [hd0] at hde2
        injection hde2 with hde2
        subst hde2
        exact Or.inl (Or.inl hy2.symm)
      · exact Or.inr ⟨e2, he2, d2, hde2, hy2⟩

/-- Fold invariant for conservation (claim C1): when the incoming entries
land on pairwise-distinct days that are also fresh for the state, every
bucket total stays the sum of its daily values, and the year totals absorb
exactly the incoming raw counts. -/
theorem fold_conservation (todayZ : Int) (cal : List (String × Int))
    (st st2 : AggState)
    (h : foldE (processEntry todayZ) st cal = .ok st2)
    (hpair : cal.Pairwise (fun a b => entryDate a ≠ entryDate b))
    (hdisj : ∀ e ∈ cal, ∀ d, entryDate e = some d → d ∉ dailyDates st)
    (hyt : ∀ yb ∈ st.yearly, yb.2.total = sumVals yb.2.daily)
    (hct : st.current.total = sumVals st.current.daily) :
    (∀ yb ∈ st2.yearly, yb.2.total = sumVals yb.2.daily) ∧
    st2.current.total = sumVals st2.current.daily ∧
    sumTotals st2.yearly = sumTotals st.yearly + rawSum cal := by
  induction cal generalizing st with
  | nil =>
    simp only [foldE, Except.ok.injEq] at h
    subst h
    exact ⟨hyt, hct, by simp [rawSum]⟩
  | cons a l ih =>
    rw [foldE_ok_cons] at h
    obtain ⟨s1, ha, hl⟩ := h
    obtain ⟨d0, hd0, _, _, hs1⟩ := processEntry_ok todayZ st s1 a ha
    have hd0fresh : ¬d0 ∈ dailyDates st :=
      hdisj a (List.mem_cons_self _ _) d0 hd0
    have holdb : ∀ b, alookup st.yearly d0.year = some b →
        d0 ∉ b.daily.map Prod.fst := by
      intro b hb hmem
      exact hd0fresh (yearly_keys_sub st _ b hb d0 hmem)
    -- the updated year bucket still satisfies total = sum of dailies
    have hb2 : (⟨aset ((alookup st.yearly d0.year).getD emptyBucket).daily d0 a.2,
        ((alookup st.yearly d0.year).getD emptyBucket).total + a.2⟩ : Bucket).total =
        sumVals (aset ((alookup st.yearly d0.year).getD emptyBucket).daily d0 a.2) := by
      cases hlook : alookup st.yearly d0.year with
      | none =>
        simp [emptyBucket, sumVals, aset]
      | some b =>
        have hfresh := holdb b hlook
        simp only [Option.getD_some]
        rw [aset_of_not_mem _ _ _ hfresh]
        simp only [sumVals, List.map_append, List.sum_append,
          List.map_cons, List.sum_cons, List.map_nil, List.sum_nil]
        have := hyt (d0.year, b) (alookup_mem _ _ _ hlook)
        simp only [sumVals] at this
        omega
    have hcur2 : (if inWindow todayZ d0 then
        (⟨aset st.current.daily d0 a.2, st.current.total + a.2⟩ : Bucket)
        else st.current).total =
        sumVals (if inWindow todayZ d0 then
        (⟨aset st.current.daily d0 a.2, st.current.total + a.2⟩ : Bucket)
        else st.current).daily := by
      by_cases hw : inWindow todayZ d0 = true
      · rw [if_pos hw]
        have hfresh : d0 ∉ st.current.daily.map Prod.fst := by
          intro hmem
          exact hd0fresh (current_keys_sub st d0 hmem)
        simp only
        rw [aset_of_not_mem _ _ _ hfresh]
        simp only [sumVals, List.map_append, List.sum_append, List.map_cons,
          List.sum_cons, List.map_nil, List.sum_nil]
        simp only [sumVals] at hct
        omega
      · rw [if_neg hw]
        exact hct
    subst hs1
    have hyt1 : ∀ yb ∈ (aset st.yearly d0.year
        ⟨aset ((alookup st.yearly d0.year).getD emptyBucket).daily d0 a.2,
         ((alookup st.yearly d0.year).getD emptyBucket).total + a.2⟩ : List (Int × Bucket)),
        yb.2.total = sumVals yb.2.daily := by
      intro yb hyb
      rcases mem_aset _ _ _ _ hyb with rfl | hyb2
      · exact hb2
      · exact hyt yb hyb2
    have hdisj1 : ∀ e ∈ l, ∀ d, entryDate e = some d →
        d ∉ dailyDates ⟨aset st.yearly d0.year
          ⟨aset ((alookup st.yearly d0.year).getD emptyBucket).daily d0 a.2,
           ((alookup st.yearly d0.year).getD emptyBucket).total + a.2⟩,
          if inWindow todayZ d0 then
            (⟨aset st.current.daily d0 a.2, st.current.total + a.2⟩ : Bucket)
          else st.current⟩ := by
      intro e he d hde hmem
      rcases dailyDates_step todayZ st _ a ha d hmem with hold | hnew
      · exact hdisj e (List.mem_cons_of_mem a he) d hde hold
      · rw [hd0] at hnew
        injection hnew with hnew
        have hne := (List.pairwise_cons.mp hpair).1 e he
        rw [hd0, hde, hnew] at hne
        exact hne rfl
    obtain ⟨ih1, ih2, ih3⟩ := ih _ hl (List.Pairwise.of_cons hpair) hdisj1 hyt1 hcur2
    refine ⟨ih1, ih2, ?_⟩
    rw [ih3]
    simp only
    rw [sumTotals_aset]
    simp only [rawSum, List.map_cons, List.sum_cons]
    omega

/-- Fold invariant for claim C10: every date in the current bucket is
in-window, and its count agrees with the entry stored in its year
bucket. -/
theorem fold_view (todayZ : Int) (cal : List (String × Int))
    (st st2 : AggState)
    (h : foldE (processEntry todayZ) st cal = .ok st2)
    (hwin : ∀ d ∈ st.current.daily.map Prod.fst, inWindow todayZ d = true)
    (hinv : ∀ d c, alookup st.current.daily d = some c →
      ∃ b, alookup st.yearly d.year = some b ∧ alookup b.daily d = some c) :
    (∀ d ∈ st2.current.daily.map Prod.fst, inWindow todayZ d = true) ∧
    (∀ d c, alookup st2.current.daily d = some c →
      ∃ b, alookup st2.yearly d.year = some b ∧ alookup b.daily d = some c) := by
  induction cal generalizing st with
  | nil =>
    simp only [foldE, Except.ok.injEq] at h
    subst h
    exact ⟨hwin, hinv⟩
  | cons a l ih =>
    rw [foldE_ok_cons] at h
    obtain ⟨s1, ha, hl⟩ := h
    obtain ⟨d0, hd0, _, _, hs1⟩ := processEntry_ok todayZ st s1 a ha
    subst hs1
    apply ih _ hl
    · -- the window invariant after one step
      by_cases hw : inWindow todayZ d0 = true
      · rw [if_pos hw]
        intro d hd
        simp only at hd
        rw [mem_keys_aset] at hd
        rcases hd with rfl | hd
        · exact hw
        · exact hwin d hd
      · rw [if_neg hw]
        exact hwin
    · -- the view invariant after one step
      intro d c hc
      by_cases hw : inWindow todayZ d0 = true
      · rw [if_pos hw] at hc
        simp only at hc
        by_cases hdd : d0 = d
        · subst hdd
          rw [alookup_aset_self] at hc
          injection hc with hc
          subst hc
          refine ⟨_, alookup_aset_self _ _ _, ?_⟩
          exact alookup_aset_self _ _ _
        · rw [alookup_aset_ne _ _ _ _ hdd] at hc
          obtain ⟨b, hb, hbd⟩ := hinv d c hc
          by_cases hy : d0.year = d.year
          · rw [← hy] at hb ⊢
            rw [alookup_aset_self]
            rw [hb, Option.getD_some]  -- hmm adjust
            exact ⟨_, rfl, by rw [alookup_aset_ne _ _ _ _ hdd]; exact hbd⟩
          · rw [alookup_aset_ne _ _ _ _ hy]
            exact ⟨b, hb, hbd⟩
      · rw [if_neg hw] at hc
        by_cases hdd : d0 = d
        · subst hdd
          have : d0 ∈ st.current.daily.map Prod.fst := by
            rw [alookup_isSome]
            exact ⟨c, hc⟩
          exact absurd (hwin d0 this) hw
        · obtain ⟨b, hb, hbd⟩ := hinv d c hc
          by_cases hy : d0.year = d.year
          · rw [← hy] at hb ⊢
            rw [alookup_aset_self, hb, Option.getD_some]
            exact ⟨_, rfl, by rw [alookup_aset_ne _ _ _ _ hdd]; exact hbd⟩
          · rw [alookup_aset_ne _ _ _ _ hy]
            exact ⟨b, hb, hbd⟩

theorem pairwise_lt_of_sorted_nodup (l : List Int)
    (h1 : l.Pairwise (fun a b => b ≤ a)) (h2 : l.Nodup) :
    l.Pairwise (fun a b => b < a) := by
  induction l with
  | nil => exact List.Pairwise.nil
  | cons x xs ih =>
    rcases List.pairwise_cons.mp h1 with ⟨hx, hxs⟩
    rcases List.nodup_cons.mp h2 with ⟨hnx, hnxs⟩
    refine List.pairwise_cons.mpr ⟨?_, ih hxs hnxs⟩
    intro a ha
    exact lt_of_le_of_ne (hx a ha) (fun he => hnx (he ▸ ha))

/-- Inversion of `process_progress_by_year`: a successful run comes from a
successful fold, and the output is the current bucket followed by the year
buckets in descending year order. -/
theorem process_ok (cal : List (String × Int)) (todayZ : Int)
    (progress : List (String × Bucket))
    (h : process_progress_by_year cal todayZ = .ok progress) :
    ∃ st, foldE (processEntry todayZ) ⟨[], emptyBucket⟩ cal = .ok st ∧
      progress = ("current", st.current) ::
        (sortDesc (st.yearly.map (fun yb => yb.1))).map
          (fun y => (toString y, (alookup st.yearly y).getD emptyBucket)) := by
  rw [process_progress_by_year] at h
  cases hf : foldE (processEntry todayZ) ⟨[], emptyBucket⟩ cal with
  | error e =>
    rw [hf] at h
    exact absurd h (by simp)
  | ok st =>
    rw [hf] at h
    simp only [Except.ok.injEq] at h
    exact ⟨st, rfl, h.symm⟩

/-! ## Claim theorems for the calendar aggregator -/

/-- Claim C1.  For every submission calendar whose entries land on
pairwise-distinct calendar days, the aggregated report loses and
duplicates no counts: every bucket's total (the current bucket included)
equals the sum of that bucket's daily values, and the per-year bucket
totals (the tail of the report, i.e. everything except the leading
"current" bucket) sum to the raw input total.  The only duplication is the
current bucket, which sits outside the per-year partition and recounts
in-window entries by design. -/
theorem c1_conservation (cal : List (String × Int)) (todayZ : Int)
    (progress : List (String × Bucket))
    (hpair : cal.Pairwise (fun a b => entryDate a ≠ entryDate b))
    (h : process_progress_by_year cal todayZ = .ok progress) :
    (∀ kb ∈ progress, kb.2.total = sumVals kb.2.daily) ∧
    (progress.tail.map (fun kb => kb.2.total)).sum = rawSum cal ∧
    (∃ cur, progress.head? = some ("current", cur)) := by
  obtain ⟨st, hf, hp⟩ := process_ok cal todayZ progress h
  have hcons := fold_conservation todayZ cal ⟨[], emptyBucket⟩ st hf hpair
    (by intro e he d hd hmem; simp [dailyDates, emptyBucket] at hmem)
    (by intro yb hyb; simp at hyb)
    (by simp [emptyBucket, sumVals])
  obtain ⟨hyt, hct, htot⟩ := hcons
  have hkeys := fold_yearly_keys todayZ cal ⟨[], emptyBucket⟩ st hf (by simp)
  obtain ⟨hnd, _⟩ := hkeys
  subst hp
  refine ⟨?_, ?_, ⟨st.current, rfl⟩⟩
  · intro kb hkb
    rcases List.mem_cons.mp hkb with rfl | hkb
    · exact hct
    · simp only [List.mem_map] at hkb
      obtain ⟨y, hy, rfl⟩ := hkb
      have hy2 : y ∈ st.yearly.map Prod.fst :=
        (sortDesc_perm _).mem_iff.mp hy
      obtain ⟨b, hb⟩ := (alookup_isSome _ _).mp hy2
      rw [hb, Option.getD_some]
      exact hyt (y, b) (alookup_mem _ _ _ hb)
  · simp only [List.tail_cons, List.map_map]
    have hperm : ((sortDesc (st.yearly.map (fun yb => yb.1))).map
        (fun y => ((alookup st.yearly y).getD emptyBucket).total)).sum =
        ((st.yearly.map (fun yb => yb.1)).map
        (fun y => ((alookup st.yearly y).getD emptyBucket).total)).sum :=
      ((sortDesc_perm _).map _).sum_eq
    have hmk : (st.yearly.map (fun yb => yb.1)).map
        (fun y => (alookup st.yearly y).getD emptyBucket) =
        st.yearly.map Prod.snd := map_keys_lookup st.yearly emptyBucket hnd
    have hcomp : ((st.yearly.map (fun yb => yb.1)).map
        (fun y => ((alookup st.yearly y).getD emptyBucket).total)) =
        st.yearly.map (fun yb => yb.2.total) := by
      rw [show (fun y => ((alookup st.yearly y).getD emptyBucket).total) =
          (fun b => b.total) ∘ (fun y => (alookup st.yearly y).getD emptyBucket)
          from rfl]
      rw [← List.map_map, hmk, List.map_map]
      rfl
    calc ((sortDesc (st.yearly.map (fun yb => yb.1))).map
          ((fun kb => kb.2.total) ∘ fun y =>
            (toString y, (alookup st.yearly y).getD emptyBucket))).sum
        = ((sortDesc (st.yearly.map (fun yb => yb.1))).map
            (fun y => ((alookup st.yearly y).getD emptyBucket).total)).sum := rfl
      _ = ((st.yearly.map (fun yb => yb.1)).map
            (fun y => ((alookup st.yearly y).getD emptyBucket).total)).sum := hperm
      _ = (st.yearly.map (fun yb => yb.2.total)).sum := by rw [hcomp]
      _ = rawSum cal := by
            have : sumTotals st.yearly = rawSum cal := by
              rw [htot]
              simp [sumTotals]
            simpa [sumTotals] using this

/-- Claim C2.  A date derived from an input entry appears in the current
bucket exactly when it lies in the inclusive trailing window
`today - 365 days <= d <= today`, and the current bucket's total is the sum
of the counts of exactly the in-window entries. -/
theorem c2_current_window (cal : List (String × Int)) (todayZ : Int)
    (progress : List (String × Bucket))
    (h : process_progress_by_year cal todayZ = .ok progress) :
    ∃ cur, progress.head? = some ("current", cur) ∧
      (∀ e ∈ cal, ∀ d, entryDate e = some d →
        (d ∈ cur.daily.map Prod.fst ↔ inWindow todayZ d = true)) ∧
      cur.total = winSum todayZ cal := by
  obtain ⟨st, hf, hp⟩ := process_ok cal todayZ progress h
  obtain ⟨hmem, htot⟩ := fold_current todayZ cal ⟨[], emptyBucket⟩ st hf
  subst hp
  refine ⟨st.current, rfl, ?_, ?_⟩
  · intro e he d hd
    rw [hmem d]
    simp only [emptyBucket, List.map_nil, List.not_mem_nil, false_or]
    constructor
    · rintro ⟨e2, he2, hde2, hw2⟩
      exact hw2
    · intro hw
      exact ⟨e, he, hd, hw⟩
  · rw [htot]
    simp [emptyBucket]

/-- Claim C9 counterexample.  The year keys of the report are `str(year)`,
which is not 4 digits for dates before the year 1000: the timestamp
-31536000000 (a negative Unix timestamp CPython accepts on the deployment
platform) lands on 0970-08-31, and its bucket key is the 3-character
string "970". -/
theorem c9_counterexample :
    ∃ progress,
      process_progress_by_year [("-31536000000", 1)] 20046 = .ok progress ∧
      progress.map Prod.fst = ["current", "970"] ∧ "970".length ≠ 4 := by
  refine ⟨_, rfl, rfl, by decide⟩

/-- Claim C9, amended.  The aggregator's output maps exactly the key
"current" plus one decimal-year key per distinct calendar year occurring
among the input dates (4 digits whenever the year has 4 digits, which
covers every non-negative timestamp), with "current" always present and
enumerated first, and the year keys enumerated in strictly descending year
order. -/
theorem c9_amended (cal : List (String × Int)) (todayZ : Int)
    (progress : List (String × Bucket))
    (h : process_progress_by_year cal todayZ = .ok progress) :
    ∃ ys : List Int,
      progress.map Prod.fst = "current" :: ys.map (fun y => toString y) ∧
      ys.Pairwise (fun a b => b < a) ∧
      (∀ y, y ∈ ys ↔ ∃ e ∈ cal, ∃ d, entryDate e = some d ∧ d.year = y) := by
  obtain ⟨st, hf, hp⟩ := process_ok cal todayZ progress h
  obtain ⟨hnd, hmem⟩ := fold_yearly_keys todayZ cal ⟨[], emptyBucket⟩ st hf (by simp)
  subst hp
  refine ⟨sortDesc (st.yearly.map (fun yb => yb.1)), ?_, ?_, ?_⟩
  · simp [List.map_map]
  · exact pairwise_lt_of_sorted_nodup _ (sortDesc_sorted _)
      ((sortDesc_perm _).nodup_iff.mpr hnd)
  · intro y
    rw [(sortDesc_perm _).mem_iff, hmem y]
    simp

/-- Claim C10.  Every date present in the current bucket's daily map is
also present, with the same count, in the daily map of the bucket keyed by
its own calendar year: the current window never diverges from the per-year
view. -/
theorem c10_view (cal : List (String × Int)) (todayZ : Int)
    (progress : List (String × Bucket)) (cur : Bucket)
    (h : process_progress_by_year cal todayZ = .ok progress)
    (hhead : progress.head? = some ("current", cur)) :
    ∀ d c, alookup cur.daily d = some c →
      ∃ b, (toString d.year, b) ∈ progress ∧ alookup b.daily d = some c := by
  obtain ⟨st, hf, hp⟩ := process_ok cal todayZ progress h
  subst hp
  simp only [List.head?_cons, Option.some.injEq, Prod.mk.injEq] at hhead
  obtain ⟨-, rfl⟩ := hhead
  obtain ⟨-, hview⟩ := fold_view todayZ cal ⟨[], emptyBucket⟩ st hf
    (by simp [emptyBucket])
    (by intro d c hc; simp [emptyBucket, alookup] at hc)
  intro d c hc
  obtain ⟨b, hb, hbd⟩ := hview d c hc
  refine ⟨b, ?_, hbd⟩
  apply List.mem_cons_of_mem
  have hy : d.year ∈ sortDesc (st.yearly.map (fun yb => yb.1)) :=
    (sortDesc_perm _).mem_iff.mpr ((alookup_isSome _ _).mpr ⟨b, hb⟩)
  have := List.mem_map_of_mem
    (fun y => (toString y, (alookup st.yearly y).getD emptyBucket)) hy
  simpa [hb] using this

/-- Witness for C1 at a concrete two-entry calendar on distinct days. -/
theorem c1_conservation_witness :
    ∃ progress, process_progress_by_year [("0", 5), ("86400", 7)] 0 = .ok progress ∧
      ((∀ kb ∈ progress, kb.2.total = sumVals kb.2.daily) ∧
       (progress.tail.map (fun kb => kb.2.total)).sum = rawSum [("0", 5), ("86400", 7)] ∧
       (∃ cur, progress.head? = some ("current", cur))) :=
  ⟨_, rfl, c1_conservation _ _ _ (by decide) rfl⟩

/-- Witness for C2 at a concrete calendar with one in-window entry. -/
theorem c2_current_window_witness :
    ∃ progress, process_progress_by_year [("0", 5)] 0 = .ok progress ∧
      ∃ cur, progress.head? = some ("current", cur) ∧
        (∀ e ∈ [("0", 5)], ∀ d, entryDate e = some d →
          (d ∈ cur.daily.map Prod.fst ↔ inWindow 0 d = true)) ∧
        cur.total = winSum 0 [("0", 5)] :=
  ⟨_, rfl, c2_current_window _ _ _ rfl⟩

/-- Witness for the amended C9 at a concrete calendar. -/
theorem c9_amended_witness :
    ∃ progress, process_progress_by_year [("0", 5), ("86400000", 7)] 20046 = .ok progress ∧
      ∃ ys : List Int,
        progress.map Prod.fst = "current" :: ys.map (fun y => toString y) ∧
        ys.Pairwise (fun a b => b < a) ∧
        (∀ y, y ∈ ys ↔ ∃ e ∈ [("0", 5), ("86400000", 7)], ∃ d,
          entryDate e = some d ∧ d.year = y) :=
  ⟨_, rfl, c9_amended _ _ _ rfl⟩

/-- Witness for C10 at a concrete calendar with an in-window entry. -/
theorem c10_view_witness :
    process_progress_by_year [("0", 5)] 0 =
      .ok [("current", ⟨[(⟨1970, 1, 1⟩, 5)], 5⟩),
           ("1970", ⟨[(⟨1970, 1, 1⟩, 5)], 5⟩)] ∧
    ∀ d c, alookup ([(⟨1970, 1, 1⟩, 5)] : List (Date × Int)) d = some c →
      ∃ b, (toString d.year, b) ∈
          ([("current", ⟨[(⟨1970, 1, 1⟩, 5)], 5⟩),
            ("1970", ⟨[(⟨1970, 1, 1⟩, 5)], 5⟩)] : List (String × Bucket)) ∧
        alookup b.daily d = some c :=
  ⟨rfl, c10_view [("0", 5)] 0 _ ⟨[(⟨1970, 1, 1⟩, 5)], 5⟩ rfl rfl⟩

/-! ## Lemmas about the request handler -/

/-- The catch-all message never coincides with the not-found/blocked
message: the two error texts differ from the first character on. -/
theorem msg_prefix_ne (msg : String) :
    "An error occurred: " ++ msg ≠
      "Could not fetch user data. Maybe invalid username or blocked request." := by
  intro h
  have h2 := congrArg String.data h
  rw [String.data_append] at h2
  rw [show "An error occurred: ".data = 'A' :: "n error occurred: ".data
    from rfl] at h2
  rw [show ("Could not fetch user data. Maybe invalid username or blocked request.").data =
    'C' :: "ould not fetch user data. Maybe invalid username or blocked request.".data
    from rfl] at h2
  simp only [List.cons_append] at h2
  injection h2 with hhead htail
  exact absurd hhead (by decide)

/-- The generic error object is never the specific error object. -/
theorem genericError_ne_fetchError (msg : String) :
    genericError msg ≠ fetchErrorJson := by
  intro h
  rw [genericError, fetchErrorJson] at h
  injection h with h1
  injection h1 with h2 h3
  injection h2 with h4 h5
  injection h5 with h6
  exact msg_prefix_ne msg h6

/-- A successful field-read list over a non-empty spec list starts with the
first spec's output key. -/
theorem getFields_cons_ok (src : Json) (s0 : String × String × Json)
    (t : List (String × String × Json)) (l : List (String × Json))
    (h : getFields src (s0 :: t) = .ok l) :
    ∃ v rest, l = (s0.1, v) :: rest := by
  obtain ⟨outKey, srcKey, dflt⟩ := s0
  rw [getFields] at h
  cases h1 : pyGet src srcKey dflt with
  | error e =>
    rw [h1] at h
    exact Except.noConfusion h
  | ok v =>
    rw [h1] at h
    cases h2 : getFields src t with
    | error e =>
      rw [h2] at h
      exact Except.noConfusion h
    | ok rest =>
      rw [h2] at h
      injection h with h3
      exact ⟨v, rest, h3.symm⟩

/-- A successfully assembled response object always starts with the
"username" key (so it is never an error object). -/
theorem assembleProfile_firstKey (dd mu : Json) (todayZ : Int) (r : Json)
    (h : assembleProfile dd mu todayZ = .ok r) :
    firstKey r = some "username" := by
  rw [assembleProfile] at h
  split at h
  · exact Except.noConfusion h
  split at h
  · exact Except.noConfusion h
  split at h
  · exact Except.noConfusion h
  split at h
  · exact Except.noConfusion h
  split at h
  · exact Except.noConfusion h
  split at h
  · exact Except.noConfusion h
  split at h
  · exact Except.noConfusion h
  split at h
  · exact Except.noConfusion h
  split at h
  · exact Except.noConfusion h
  next x1 profFields hprof =>
    next x2 idFields hid =>
      injection h with h10
      subst h10
      rw [show muFieldSpecs = ("username", "username", Json.null) ::
        [("github", "githubUrl", Json.null),
         ("twitter", "twitterUrl", Json.null),
         ("linkedin", "linkedinUrl", Json.null)] from rfl] at hid
      obtain ⟨v, rest2, hrest⟩ := getFields_cons_ok _ _ _ _ hid
      rw [hrest]
      simp [firstKey]

/-- The redis-reachability flags and the stored entries travel through the
try block as written: the characterization of the miss path. -/
theorem matchedUserOf_none_iff (data : Json) :
    matchedUserOf data = .ok none ↔ lacksMatchedUser data := by
  rw [matchedUserOf, lacksMatchedUser]
  cases hin : pyIn "data" data with
  | error e => simp
  | ok b =>
    cases b with
    | false => simp
    | true =>
      simp only [Bool.not_true]
      cases hdd : pySubscript data "data" with
      | error e => simp
      | ok dd =>
        by_cases hf : pyFalsy dd = true
        · simp [hf]
        · have hff : pyFalsy dd = false := by
            cases hb : pyFalsy dd
            · rfl
            · exact absurd hb hf
          cases hmu : pySubscript dd "matchedUser" with
          | error e => simp [hmu, hff]
          | ok mu =>
            cases mu <;> simp [hmu, hff]

/-- A payload whose data object is present and truthy but lacks the
matchedUser key raises the KeyError inside the safety check
(src/main.py line 206 subscripts `data["data"]["matchedUser"]`). -/
theorem matchedUserOf_missing (data dd : Json) (e : String)
    (hin : pyIn "data" data = .ok true)
    (hdd : pySubscript data "data" = .ok dd)
    (hfls : pyFalsy dd = false)
    (hmu : pySubscript dd "matchedUser" = .error e) :
    matchedUserOf data = .error e := by
  have ha : matchedUserOf data =
      (match pySubscript data "data" with
      | .error e2 => .error e2
      | .ok dd2 =>
        if pyFalsy dd2 then .ok none
        else
          match pySubscript dd2 "matchedUser" with
          | .error e2 => .error e2
          | .ok mu =>
            match mu with
            | .null => .ok none
            | _ => .ok (some (dd2, mu))) := by
    rw [matchedUserOf, hin]
    rfl
  rw [hdd] at ha
  have hb : matchedUserOf data =
      (if pyFalsy dd then .ok none
      else
        match pySubscript dd "matchedUser" with
        | .error e2 => .error e2
        | .ok mu =>
          match mu with
          | .null => .ok none
          | _ => .ok (some (dd, mu))) := ha
  rw [hfls] at hb
  have hc : matchedUserOf data =
      (match pySubscript dd "matchedUser" with
      | .error e2 => .error e2
      | .ok mu =>
        match mu with
        | .null => .ok none
        | _ => .ok (some (dd, mu))) := hb
  rw [hmu] at hc
  exact hc

/-- Subscripting a dict that lacks the key raises the KeyError naming the
key. -/
theorem pySubscript_obj_none (kvs : List (String × Json)) (k : String)
    (h : alookup kvs k = none) :
    pySubscript (Json.obj kvs) k = .error ("KeyError: " ++ k) := by
  rw [pySubscript, h]

/-- `.get` field reads against a dict never raise: every field of the spec
list comes out as the stored value when the key is present and as the
spec's default when it is absent (src/main.py lines 247-259). -/
theorem getFields_obj (kvs : List (String × Json))
    (specs : List (String × String × Json)) :
    getFields (Json.obj kvs) specs =
      .ok (specs.map (fun sp => (sp.1, (alookup kvs sp.2.1).getD sp.2.2))) := by
  induction specs with
  | nil => rfl
  | cons sp t ih =>
    obtain ⟨outKey, srcKey, dflt⟩ := sp
    have h1 : getFields (Json.obj kvs) ((outKey, srcKey, dflt) :: t) =
        (match getFields (Json.obj kvs) t with
        | .error e => .error e
        | .ok rest => .ok ((outKey, (alookup kvs srcKey).getD dflt) :: rest)) :=
      rfl
    rw [h1, ih]
    rfl

/-- Unfolding of the assembly past the two reads the hypotheses settle:
the global question counts and the profile sub-object. -/
theorem assembleProfile_unfold1 (dd mu : Json) (todayZ : Int)
    (allQ profile : Json)
    (hq : pySubscript dd "allQuestionsCount" = .ok allQ)
    (hp : pyGet mu "profile" (Json.obj []) = .ok profile) :
    assembleProfile dd mu todayZ =
      (match pySubscript mu "userCalendar" with
      | .error e => .error e
      | .ok uc =>
        match pySubscript uc "submissionCalendar" with
        | .error e => .error e
        | .ok scv =>
          match pyLoadsCalendar scv with
          | .error e => .error e
          | .ok cal =>
            match process_progress_by_year cal todayZ with
            | .error e => .error e
            | .ok progress =>
              match buildProblems allQ mu with
              | .error e => .error e
              | .ok problems =>
                match getFields mu muFieldSpecs with
                | .error e => .error e
                | .ok idFields =>
                  match getFields profile profileFieldSpecs with
                  | .error e => .error e
                  | .ok profFields =>
                    .ok (Json.obj (idFields ++ profFields ++
                      [("progress", progressJson progress),
                       ("problem", problemsJson problems)]))) := by
  rw [assembleProfile, hq, hp]

/-- Universal degradation law: whenever the required chain succeeds, the
assembly succeeds, and every optional field of the response is the payload
value when present and the declared null or empty-collection default when
absent. -/
theorem assembleProfile_defaults (dd : Json) (todayZ : Int)
    (mukvs profkvs : List (String × Json)) (allQ uc : Json) (s : String)
    (cal : List (String × Int)) (progress : List (String × Bucket))
    (problems : List (String × Json × Json))
    (hq : pySubscript dd "allQuestionsCount" = .ok allQ)
    (hprof : (alookup mukvs "profile").getD (Json.obj []) = Json.obj profkvs)
    (huc : pySubscript (Json.obj mukvs) "userCalendar" = .ok uc)
    (hsc : pySubscript uc "submissionCalendar" = .ok (Json.str s))
    (hload : pyLoadsCalendar (Json.str s) = .ok cal)
    (hproc : process_progress_by_year cal todayZ = .ok progress)
    (hbp : buildProblems allQ (Json.obj mukvs) = .ok problems) :
    assembleProfile dd (Json.obj mukvs) todayZ = .ok (Json.obj (
      muFieldSpecs.map (fun sp => (sp.1, (alookup mukvs sp.2.1).getD sp.2.2)) ++
      profileFieldSpecs.map
        (fun sp => (sp.1, (alookup profkvs sp.2.1).getD sp.2.2)) ++
      [("progress", progressJson progress),
       ("problem", problemsJson problems)])) := by
  have hp : pyGet (Json.obj mukvs) "profile" (Json.obj []) =
      .ok (Json.obj profkvs) := by
    rw [show pyGet (Json.obj mukvs) "profile" (Json.obj []) =
      .ok ((alookup mukvs "profile").getD (Json.obj [])) from rfl, hprof]
  have t1 := assembleProfile_unfold1 dd (Json.obj mukvs) todayZ allQ
    (Json.obj profkvs) hq hp
  rw [huc] at t1
  have t2 : assembleProfile dd (Json.obj mukvs) todayZ =
      (match pySubscript uc "submissionCalendar" with
      | .error e => .error e
      | .ok scv =>
        match pyLoadsCalendar scv with
        | .error e => .error e
        | .ok cal2 =>
          match process_progress_by_year cal2 todayZ with
          | .error e => .error e
          | .ok progress2 =>
            match buildProblems allQ (Json.obj mukvs) with
            | .error e => .error e
            | .ok problems2 =>
              match getFields (Json.obj mukvs) muFieldSpecs with
              | .error e => .error e
              | .ok idFields =>
                match getFields (Json.obj profkvs) profileFieldSpecs with
                | .error e => .error e
                | .ok profFields =>
                  .ok (Json.obj (idFields ++ profFields ++
                    [("progress", progressJson progress2),
                     ("problem", problemsJson problems2)]))) := t1
  rw [hsc] at t2
  have t3 : assembleProfile dd (Json.obj mukvs) todayZ =
      (match pyLoadsCalendar (Json.str s) with
      | .error e => .error e
      | .ok cal2 =>
        match process_progress_by_year cal2 todayZ with
        | .error e => .error e
        | .ok progress2 =>
          match buildProblems allQ (Json.obj mukvs) with
          | .error e => .error e
          | .ok problems2 =>
            match getFields (Json.obj mukvs) muFieldSpecs with
            | .error e => .error e
            | .ok idFields =>
              match getFields (Json.obj profkvs) profileFieldSpecs with
              | .error e => .error e
              | .ok profFields =>
                .ok (Json.obj (idFields ++ profFields ++
                  [("progress", progressJson progress2),
                   ("problem", problemsJson problems2)]))) := t2
  rw [hload] at t3
  have t4 : assembleProfile dd (Json.obj mukvs) todayZ =
      (match process_progress_by_year cal todayZ with
      | .error e => .error e
      | .ok progress2 =>
        match buildProblems allQ (Json.obj mukvs) with
        | .error e => .error e
        | .ok problems2 =>
          match getFields (Json.obj mukvs) muFieldSpecs with
          | .error e => .error e
          | .ok idFields =>
            match getFields (Json.obj profkvs) profileFieldSpecs with
            | .error e => .error e
            | .ok profFields =>
              .ok (Json.obj (idFields ++ profFields ++
                [("progress", progressJson progress2),
                 ("problem", problemsJson problems2)]))) := t3
  rw [hproc] at t4
  have t5 : assembleProfile dd (Json.obj mukvs) todayZ =
      (match buildProblems allQ (Json.obj mukvs) with
      | .error e => .error e
      | .ok problems2 =>
        match getFields (Json.obj mukvs) muFieldSpecs with
        | .error e => .error e
        | .ok idFields =>
          match getFields (Json.obj profkvs) profileFieldSpecs with
          | .error e => .error e
          | .ok profFields =>
            .ok (Json.obj (idFields ++ profFields ++
              [("progress", progressJson progress),
               ("problem", problemsJson problems2)]))) := t4
  rw [hbp] at t5
  have t6 : assembleProfile dd (Json.obj mukvs) todayZ =
      (match getFields (Json.obj mukvs) muFieldSpecs with
      | .error e => .error e
      | .ok idFields =>
        match getFields (Json.obj profkvs) profileFieldSpecs with
        | .error e => .error e
        | .ok profFields =>
          .ok (Json.obj (idFields ++ profFields ++
            [("progress", progressJson progress),
             ("problem", problemsJson problems)]))) := t5
  rw [getFields_obj mukvs muFieldSpecs] at t6
  have t7 : assembleProfile dd (Json.obj mukvs) todayZ =
      (match getFields (Json.obj profkvs) profileFieldSpecs with
      | .error e => .error e
      | .ok profFields =>
        .ok (Json.obj (
          muFieldSpecs.map
            (fun sp => (sp.1, (alookup mukvs sp.2.1).getD sp.2.2)) ++
          profFields ++
          [("progress", progressJson progress),
           ("problem", problemsJson problems)]))) := t6
  rw [getFields_obj profkvs profileFieldSpecs] at t7
  exact t7

/-- A data object without the allQuestionsCount key makes the assembly
raise the corresponding KeyError at its very first read
(src/main.py line 212). -/
theorem assembleProfile_noAllQuestions (mu : Json) (todayZ : Int)
    (kvs : List (String × Json))
    (hnone : alookup kvs "allQuestionsCount" = none) :
    assembleProfile (Json.obj kvs) mu todayZ =
      .error ("KeyError: " ++ "allQuestionsCount") := by
  rw [assembleProfile, pySubscript_obj_none kvs _ hnone]

/-- A matched user without the userCalendar key makes the assembly raise
the corresponding KeyError (src/main.py line 218). -/
theorem assembleProfile_noUserCalendar (dd : Json) (todayZ : Int)
    (mukvs : List (String × Json)) (allQ : Json)
    (hq : pySubscript dd "allQuestionsCount" = .ok allQ)
    (hnone : alookup mukvs "userCalendar" = none) :
    assembleProfile dd (Json.obj mukvs) todayZ =
      .error ("KeyError: " ++ "userCalendar") := by
  have t1 := assembleProfile_unfold1 dd (Json.obj mukvs) todayZ allQ
    ((alookup mukvs "profile").getD (Json.obj [])) hq rfl
  rw [pySubscript_obj_none mukvs _ hnone] at t1
  exact t1

/-- A userCalendar object without the submissionCalendar key makes the
assembly raise the corresponding KeyError (src/main.py line 218). -/
theorem assembleProfile_noSubmissionCalendar (dd : Json) (todayZ : Int)
    (mukvs uckvs : List (String × Json)) (allQ : Json)
    (hq : pySubscript dd "allQuestionsCount" = .ok allQ)
    (huc : pySubscript (Json.obj mukvs) "userCalendar" = .ok (Json.obj uckvs))
    (hnone : alookup uckvs "submissionCalendar" = none) :
    assembleProfile dd (Json.obj mukvs) todayZ =
      .error ("KeyError: " ++ "submissionCalendar") := by
  have t1 := assembleProfile_unfold1 dd (Json.obj mukvs) todayZ allQ
    ((alookup mukvs "profile").getD (Json.obj [])) hq rfl
  rw [huc] at t1
  have t2 : assembleProfile dd (Json.obj mukvs) todayZ =
      (match pySubscript (Json.obj uckvs) "submissionCalendar" with
      | .error e => .error e
      | .ok scv =>
        match pyLoadsCalendar scv with
        | .error e => .error e
        | .ok cal =>
          match process_progress_by_year cal todayZ with
          | .error e => .error e
          | .ok progress =>
            match buildProblems allQ (Json.obj mukvs) with
            | .error e => .error e
            | .ok problems =>
              match getFields (Json.obj mukvs) muFieldSpecs with
              | .error e => .error e
              | .ok idFields =>
                match getFields ((alookup mukvs "profile").getD (Json.obj []))
                    profileFieldSpecs with
                | .error e => .error e
                | .ok profFields =>
                  .ok (Json.obj (idFields ++ profFields ++
                    [("progress", progressJson progress),
                     ("problem", problemsJson problems)]))) := t1
  rw [pySubscript_obj_none uckvs _ hnone] at t2
  exact t2

/-- A matched user without the submitStats key makes the problem-stats
loop raise the corresponding KeyError (src/main.py line 240). -/
theorem buildProblems_noSubmitStats (allQ : Json)
    (mukvs : List (String × Json)) (qlist : List Json)
    (p : List (String × Json × Json))
    (hiter : pyIter allQ = .ok qlist)
    (hfold : foldE applyTotal problems0 qlist = .ok p)
    (hnone : alookup mukvs "submitStats" = none) :
    buildProblems allQ (Json.obj mukvs) =
      .error ("KeyError: " ++ "submitStats") := by
  have b1 : buildProblems allQ (Json.obj mukvs) =
      (match pyIter allQ with
      | .error e => .error e
      | .ok qs =>
        match foldE applyTotal problems0 qs with
        | .error e => .error e
        | .ok p2 =>
          match pySubscript (Json.obj mukvs) "submitStats" with
          | .error e => .error e
          | .ok ss =>
            match pySubscript ss "acSubmissionNum" with
            | .error e => .error e
            | .ok ac =>
              match pyIter ac with
              | .error e => .error e
              | .ok subs => foldE applySolved p2 subs) := rfl
  rw [hiter] at b1
  have b2 : buildProblems allQ (Json.obj mukvs) =
      (match foldE applyTotal problems0 qlist with
      | .error e => .error e
      | .ok p2 =>
        match pySubscript (Json.obj mukvs) "submitStats" with
        | .error e => .error e
        | .ok ss =>
          match pySubscript ss "acSubmissionNum" with
          | .error e => .error e
          | .ok ac =>
            match pyIter ac with
            | .error e => .error e
            | .ok subs => foldE applySolved p2 subs) := b1
  rw [hfold] at b2
  have b3 : buildProblems allQ (Json.obj mukvs) =
      (match pySubscript (Json.obj mukvs) "submitStats" with
      | .error e => .error e
      | .ok ss =>
        match pySubscript ss "acSubmissionNum" with
        | .error e => .error e
        | .ok ac =>
          match pyIter ac with
          | .error e => .error e
          | .ok subs => foldE applySolved p subs) := b2
  rw [pySubscript_obj_none mukvs _ hnone] at b3
  exact b3

/-- A submitStats object without the acSubmissionNum key makes the
problem-stats loop raise the corresponding KeyError
(src/main.py line 240). -/
theorem buildProblems_noAcSubmissionNum (allQ mu : Json)
    (sskvs : List (String × Json)) (qlist : List Json)
    (p : List (String × Json × Json))
    (hiter : pyIter allQ = .ok qlist)
    (hfold : foldE applyTotal problems0 qlist = .ok p)
    (hss : pySubscript mu "submitStats" = .ok (Json.obj sskvs))
    (hnone : alookup sskvs "acSubmissionNum" = none) :
    buildProblems allQ mu = .error ("KeyError: " ++ "acSubmissionNum") := by
  have b1 : buildProblems allQ mu =
      (match pyIter allQ with
      | .error e => .error e
      | .ok qs =>
        match foldE applyTotal problems0 qs with
        | .error e => .error e
        | .ok p2 =>
          match pySubscript mu "submitStats" with
          | .error e => .error e
          | .ok ss =>
            match pySubscript ss "acSubmissionNum" with
            | .error e => .error e
            | .ok ac =>
              match pyIter ac with
              | .error e => .error e
              | .ok subs => foldE applySolved p2 subs) := rfl
  rw [hiter] at b1
  have b2 : buildProblems allQ mu =
      (match foldE applyTotal problems0 qlist with
      | .error e => .error e
      | .ok p2 =>
        match pySubscript mu "submitStats" with
        | .error e => .error e
        | .ok ss =>
          match pySubscript ss "acSubmissionNum" with
          | .error e => .error e
          | .ok ac =>
            match pyIter ac with
            | .error e => .error e
            | .ok subs => foldE applySolved p2 subs) := b1
  rw [hfold] at b2
  have b3 : buildProblems allQ mu =
      (match pySubscript mu "submitStats" with
      | .error e => .error e
      | .ok ss =>
        match pySubscript ss "acSubmissionNum" with
        | .error e => .error e
        | .ok ac =>
          match pyIter ac with
          | .error e => .error e
          | .ok subs => foldE applySolved p subs) := b2
  rw [hss] at b3
  have b4 : buildProblems allQ mu =
      (match pySubscript (Json.obj sskvs) "acSubmissionNum" with
      | .error e => .error e
      | .ok ac =>
        match pyIter ac with
        | .error e => .error e
        | .ok subs => foldE applySolved p subs) := b3
  rw [pySubscript_obj_none sskvs _ hnone] at b4
  exact b4

/-! ## Claim theorems for the request handler -/

/-- Claim C6.  Every exception raised inside the try block (for example a
submission-calendar string that fails to parse as JSON) is caught at the
single request boundary and converted to exactly the object
`{"error": "An error occurred: <message>"}`, with the cache entries
unchanged (no cache write) and no partial result; and this generic object
never coincides with the not-found/blocked error object, which is the only
other error message the handler can produce. -/
theorem c6_boundary (username : String) (cache : CacheState)
    (upstream : Except String Json) (todayZ : Int) (msg : String)
    (called : Bool)
    (h : get_user_data_try username cache upstream todayZ = .error (msg, called)) :
    get_user_data username cache upstream todayZ =
      ⟨genericError msg, cache.entries, called⟩ ∧
    genericError msg ≠ fetchErrorJson := by
  constructor
  · rw [get_user_data, h]
  · exact genericError_ne_fetchError msg

/-- Witness for C6: a payload whose submission calendar is malformed JSON
raises during parsing, and the handler returns the generic error object
without writing to the cache. -/
theorem c6_boundary_witness :
    get_user_data "u" ⟨false, false, []⟩ (.ok badCalPayload) 0 =
      ⟨genericError "Expecting value", [], true⟩ ∧
    genericError "Expecting value" ≠ fetchErrorJson :=
  c6_boundary "u" ⟨false, false, []⟩ (.ok badCalPayload) 0 "Expecting value"
    true rfl

/-- Unfolding of the try block on a cache miss with a reachable store. -/
theorem try_unfold (username : String) (cache : CacheState)
    (upstream : Except String Json) (todayZ : Int)
    (hget : cache.getFails = false)
    (hmiss : alookup cache.entries (cacheKey username) = none) :
    get_user_data_try username cache upstream todayZ =
      match upstream with
      | .error e => .error (e, true)
      | .ok data =>
        match matchedUserOf data with
        | .error e => .error (e, true)
        | .ok none => .ok (fetchErrorJson, cache.entries, true)
        | .ok (some (dd, mu)) =>
          match assembleProfile dd mu todayZ with
          | .error e => .error (e, true)
          | .ok result =>
            if cache.setFails then .error (redisErrMsg, true)
            else .ok (result,
              aset cache.entries (cacheKey username) (result, 3600), true) := by
  rw [get_user_data_try.eq_def, hget, hmiss]
  rfl

/-- An exception raised during assembly surfaces as the generic error
object, with the cache entries unchanged. -/
theorem handle_assembleError (username : String) (cache : CacheState)
    (upstream : Except String Json) (todayZ : Int) (data dd mu : Json)
    (e : String)
    (hget : cache.getFails = false)
    (hmiss : alookup cache.entries (cacheKey username) = none)
    (hup : upstream = .ok data)
    (hmo : matchedUserOf data = .ok (some (dd, mu)))
    (hasm : assembleProfile dd mu todayZ = .error e) :
    get_user_data username cache upstream todayZ =
      ⟨genericError e, cache.entries, true⟩ := by
  subst hup
  have htry := try_unfold username cache (.ok data) todayZ hget hmiss
  have h2 : get_user_data_try username cache (.ok data) todayZ =
      (match matchedUserOf data with
      | .error e2 => .error (e2, true)
      | .ok none => .ok (fetchErrorJson, cache.entries, true)
      | .ok (some (dd2, mu2)) =>
        match assembleProfile dd2 mu2 todayZ with
        | .error e2 => .error (e2, true)
        | .ok result =>
          if cache.setFails then .error (redisErrMsg, true)
          else .ok (result,
            aset cache.entries (cacheKey username) (result, 3600), true)) := htry
  rw [hmo] at h2
  have h3 : get_user_data_try username cache (.ok data) todayZ =
      (match assembleProfile dd mu todayZ with
      | .error e2 => .error (e2, true)
      | .ok result =>
        if cache.setFails then .error (redisErrMsg, true)
        else .ok (result,
          aset cache.entries (cacheKey username) (result, 3600), true)) := h2
  rw [hasm] at h3
  have h4 : get_user_data_try username cache (.ok data) todayZ =
      .error (e, true) := h3
  rw [get_user_data, h4]

/-- A successful assembly with a writable store is returned and cached
verbatim. -/
theorem handle_assembleOk (username : String) (cache : CacheState)
    (upstream : Except String Json) (todayZ : Int) (data dd mu result : Json)
    (hget : cache.getFails = false)
    (hmiss : alookup cache.entries (cacheKey username) = none)
    (hset : cache.setFails = false)
    (hup : upstream = .ok data)
    (hmo : matchedUserOf data = .ok (some (dd, mu)))
    (hasm : assembleProfile dd mu todayZ = .ok result) :
    get_user_data username cache upstream todayZ =
      ⟨result, aset cache.entries (cacheKey username) (result, 3600), true⟩ := by
  subst hup
  have htry := try_unfold username cache (.ok data) todayZ hget hmiss
  have h2 : get_user_data_try username cache (.ok data) todayZ =
      (match matchedUserOf data with
      | .error e2 => .error (e2, true)
      | .ok none => .ok (fetchErrorJson, cache.entries, true)
      | .ok (some (dd2, mu2)) =>
        match assembleProfile dd2 mu2 todayZ with
        | .error e2 => .error (e2, true)
        | .ok result2 =>
          if cache.setFails then .error (redisErrMsg, true)
          else .ok (result2,
            aset cache.entries (cacheKey username) (result2, 3600), true)) := htry
  rw [hmo] at h2
  have h3 : get_user_data_try username cache (.ok data) todayZ =
      (match assembleProfile dd mu todayZ with
      | .error e2 => .error (e2, true)
      | .ok result2 =>
        if cache.setFails then .error (redisErrMsg, true)
        else .ok (result2,
          aset cache.entries (cacheKey username) (result2, 3600), true)) := h2
  rw [hasm, hset] at h3
  have h4 : get_user_data_try username cache (.ok data) todayZ =
      .ok (result,
        aset cache.entries (cacheKey username) (result, 3600), true) := h3
  rw [get_user_data, h4]

/-- Claim C3 counterexample.  A transport-level upstream failure does not
produce the specific not-found/blocked error object: it propagates to the
catch-all and yields the generic error object instead. -/
theorem c3_counterexample :
    (get_user_data "u" ⟨false, false, []⟩ (.error "connection refused") 0).response ≠
      fetchErrorJson ∧
    (get_user_data "u" ⟨false, false, []⟩ (.error "connection refused") 0).response =
      genericError "connection refused" :=
  ⟨genericError_ne_fetchError _, rfl⟩

/-- Claim C3, amended.  On a miss with a reachable cache, the handler
returns exactly the specific error object iff the upstream call returned a
payload lacking a matched user in the sense of the safety check (no "data"
key, falsy "data" value, or null matchedUser value); in that case no cache
write occurs.  A transport-level failure (part 3), or a payload whose
present and truthy data object lacks the matchedUser key so that the
subscript raises (part 4), instead propagates to the catch-all, producing
the generic error object with the cache entries unchanged. -/
theorem c3_amended (username : String) (cache : CacheState)
    (upstream : Except String Json) (todayZ : Int)
    (hget : cache.getFails = false)
    (hmiss : alookup cache.entries (cacheKey username) = none) :
    ((get_user_data username cache upstream todayZ).response = fetchErrorJson ↔
      ∃ data, upstream = .ok data ∧ lacksMatchedUser data) ∧
    ((get_user_data username cache upstream todayZ).response = fetchErrorJson →
      (get_user_data username cache upstream todayZ).entries = cache.entries) ∧
    (∀ e, upstream = .error e → get_user_data username cache upstream todayZ =
      ⟨genericError e, cache.entries, true⟩) ∧
    (∀ (data2 dd2 : Json) (e : String),
      upstream = .ok data2 →
      pyIn "data" data2 = .ok true →
      pySubscript data2 "data" = .ok dd2 →
      pyFalsy dd2 = false →
      pySubscript dd2 "matchedUser" = .error e →
      get_user_data username cache upstream todayZ =
        ⟨genericError e, cache.entries, true⟩) := by
  have htry := try_unfold username cache upstream todayZ hget hmiss
  cases upstream with
  | error e0 =>
    have h2 : get_user_data_try username cache (.error e0) todayZ =
        .error (e0, true) := htry
    have hgud : get_user_data username cache (.error e0) todayZ =
        ⟨genericError e0, cache.entries, true⟩ := by
      rw [get_user_data, h2]
    refine ⟨?_, ?_, ?_, ?_⟩
    · rw [hgud]
      constructor
      · intro h
        exact absurd h (genericError_ne_fetchError e0)
      · rintro ⟨data, hd, -⟩
        exact Except.noConfusion hd
    · intro h
      rw [hgud]
    · intro e he
      injection he with he
      subst he
      exact hgud
    · intro data2 dd2 e hup hin hdd hfls hmu
      exact Except.noConfusion hup
  | ok data =>
    have h2 : get_user_data_try username cache (.ok data) todayZ =
        (match matchedUserOf data with
        | .error e => .error (e, true)
        | .ok none => .ok (fetchErrorJson, cache.entries, true)
        | .ok (some (dd, mu)) =>
          match assembleProfile dd mu todayZ with
          | .error e => .error (e, true)
          | .ok result =>
            if cache.setFails then .error (redisErrMsg, true)
            else .ok (result,
              aset cache.entries (cacheKey username) (result, 3600), true)) := htry
    cases hmo : matchedUserOf data with
    | error e1 =>
      have h3 : get_user_data_try username cache (.ok data) todayZ =
          .error (e1, true) := by rw [h2, hmo]
      have hgud : get_user_data username cache (.ok data) todayZ =
          ⟨genericError e1, cache.entries, true⟩ := by
        rw [get_user_data, h3]
      refine ⟨?_, ?_, ?_, ?_⟩
      · rw [hgud]
        constructor
        · intro h
          exact absurd h (genericError_ne_fetchError e1)
        · rintro ⟨data2, hd, hlacks⟩
          injection hd with hd
          subst hd
          rw [← matchedUserOf_none_iff] at hlacks
          rw [hmo] at hlacks
          exact Except.noConfusion hlacks
      · intro h
        rw [hgud]
      · intro e he
        exact Except.noConfusion he
      · intro data2 dd2 e hup hin hdd hfls hmu
        injection hup with hup2
        subst hup2
        have hmm := matchedUserOf_missing data dd2 e hin hdd hfls hmu
        rw [hmo] at hmm
        injection hmm with hmm2
        subst hmm2
        exact hgud
    | ok omu =>
      cases omu with
      | none =>
        have h3 : get_user_data_try username cache (.ok data) todayZ =
            .ok (fetchErrorJson, cache.entries, true) := by rw [h2, hmo]
        have hgud : get_user_data username cache (.ok data) todayZ =
            ⟨fetchErrorJson, cache.entries, true⟩ := by
          rw [get_user_data, h3]
        refine ⟨?_, ?_, ?_, ?_⟩
        · rw [hgud]
          constructor
          · intro h
            exact ⟨data, rfl, (matchedUserOf_none_iff data).mp hmo⟩
          · intro h
            rfl
        · intro h
          rw [hgud]
        · intro e he
          exact Except.noConfusion he
        · intro data2 dd2 e hup hin hdd hfls hmu
          injection hup with hup2
          subst hup2
          have hmm := matchedUserOf_missing data dd2 e hin hdd hfls hmu
          rw [hmo] at hmm
          exact Except.noConfusion hmm
      | some pair =>
        obtain ⟨dd, mu⟩ := pair
        have h3 : get_user_data_try username cache (.ok data) todayZ =
            (match assembleProfile dd mu todayZ with
            | .error e => .error (e, true)
            | .ok result =>
              if cache.setFails then .error (redisErrMsg, true)
              else .ok (result,
                aset cache.entries (cacheKey username) (result, 3600), true)) := by
          rw [h2, hmo]
        have hnone : ¬∃ data2, (Except.ok data : Except String Json) = .ok data2 ∧
            lacksMatchedUser data2 := by
          rintro ⟨data2, hd, hlacks⟩
          injection hd with hd
          subst hd
          rw [← matchedUserOf_none_iff, hmo] at hlacks
          injection hlacks with hlacks
          exact Option.noConfusion hlacks
        have hpart4 : ∀ (data2 dd2 : Json) (e : String),
            (Except.ok data : Except String Json) = .ok data2 →
            pyIn "data" data2 = .ok true →
            pySubscript data2 "data" = .ok dd2 →
            pyFalsy dd2 = false →
            pySubscript dd2 "matchedUser" = .error e →
            get_user_data username cache (.ok data) todayZ =
              ⟨genericError e, cache.entries, true⟩ := by
          intro data2 dd2 e hup hin hdd hfls hmu
          injection hup with hup2
          subst hup2
          have hmm := matchedUserOf_missing data dd2 e hin hdd hfls hmu
          rw [hmo] at hmm
          exact Except.noConfusion hmm
        cases hasm : assembleProfile dd mu todayZ with
        | error e2 =>
          have h4 : get_user_data_try username cache (.ok data) todayZ =
              .error (e2, true) := by rw [h3, hasm]
          have hgud : get_user_data username cache (.ok data) todayZ =
              ⟨genericError e2, cache.entries, true⟩ := by
            rw [get_user_data, h4]
          refine ⟨?_, ?_, ?_, ?_⟩
          · rw [hgud]
            constructor
            · intro h
              exact absurd h (genericError_ne_fetchError e2)
            · intro h
              exact absurd h hnone
          · intro h
            rw [hgud]
          · intro e he
            exact Except.noConfusion he
          · exact hpart4
        | ok result =>
          have hfk := assembleProfile_firstKey dd mu todayZ result hasm
          cases hsf : cache.setFails with
          | true =>
            have h4 : get_user_data_try username cache (.ok data) todayZ =
                .error (redisErrMsg, true) := by rw [h3, hasm, hsf]; rfl
            have hgud : get_user_data username cache (.ok data) todayZ =
                ⟨genericError redisErrMsg, cache.entries, true⟩ := by
              rw [get_user_data, h4]
            refine ⟨?_, ?_, ?_, ?_⟩
            · rw [hgud]
              constructor
              · intro h
                exact absurd h (genericError_ne_fetchError redisErrMsg)
              · intro h
                exact absurd h hnone
            · intro h
              rw [hgud]
            · intro e he
              exact Except.noConfusion he
            · exact hpart4
          | false =>
            have h4 : get_user_data_try username cache (.ok data) todayZ =
                .ok (result,
                  aset cache.entries (cacheKey username) (result, 3600), true) := by
              rw [h3, hasm, hsf]; rfl
            have hgud : get_user_data username cache (.ok data) todayZ =
                ⟨result, aset cache.entries (cacheKey username) (result, 3600),
                  true⟩ := by
              rw [get_user_data, h4]
            refine ⟨?_, ?_, ?_, ?_⟩
            · rw [hgud]
              constructor
              · intro h
                subst h
                rw [show firstKey fetchErrorJson = some "error" from rfl] at hfk
                exact absurd hfk (by simp)
              · intro h
                exact absurd h hnone
            · intro h
              rw [hgud] at h
              simp only at h
              subst h
              exact absurd hfk (by decide)
            · intro e he
              exact Except.noConfusion he
            · exact hpart4

/-- Witness for the amended C3: an upstream payload with a null matched
user makes the handler return exactly the specific error object with no
cache write, and a payload whose data object lacks the matchedUser key
entirely makes it return the generic KeyError object instead. -/
theorem c3_amended_witness :
    (((get_user_data "u" ⟨false, false, []⟩ (.ok nullUserPayload) 0).response =
        fetchErrorJson ↔
      ∃ data, (Except.ok nullUserPayload : Except String Json) = .ok data ∧
        lacksMatchedUser data) ∧
    ((get_user_data "u" ⟨false, false, []⟩ (.ok nullUserPayload) 0).response =
        fetchErrorJson →
      (get_user_data "u" ⟨false, false, []⟩ (.ok nullUserPayload) 0).entries =
        ([] : CacheEntries)) ∧
    (∀ e, (Except.ok nullUserPayload : Except String Json) = .error e →
      get_user_data "u" ⟨false, false, []⟩ (.ok nullUserPayload) 0 =
        ⟨genericError e, [], true⟩) ∧
    (∀ (data2 dd2 : Json) (e : String),
      (Except.ok nullUserPayload : Except String Json) = .ok data2 →
      pyIn "data" data2 = .ok true →
      pySubscript data2 "data" = .ok dd2 →
      pyFalsy dd2 = false →
      pySubscript dd2 "matchedUser" = .error e →
      get_user_data "u" ⟨false, false, []⟩ (.ok nullUserPayload) 0 =
        ⟨genericError e, [], true⟩)) ∧
    get_user_data "v" ⟨false, false, []⟩
      (.ok (Json.obj [("data", Json.obj [("totals", Json.arr [])])])) 0 =
      ⟨genericError "KeyError: matchedUser", [], true⟩ := by
  refine ⟨c3_amended "u" ⟨false, false, []⟩ (.ok nullUserPayload) 0 rfl rfl, ?_⟩
  exact (c3_amended "v" ⟨false, false, []⟩
      (.ok (Json.obj [("data", Json.obj [("totals", Json.arr [])])])) 0
      rfl rfl).2.2.2
    (Json.obj [("data", Json.obj [("totals", Json.arr [])])])
    (Json.obj [("totals", Json.arr [])]) "KeyError: matchedUser"
    rfl rfl rfl rfl rfl

/-- Claim C4 counterexample.  With the cache store unreachable, the very
same otherwise-successful request does not degrade to a cache miss: it
returns the generic error object instead of the assembled profile. -/
theorem c4_counterexample :
    (get_user_data "alice" ⟨true, false, []⟩ (.ok okPayload) 20046).response =
      genericError redisErrMsg ∧
    (get_user_data "alice" ⟨false, false, []⟩ (.ok okPayload) 20046).response =
      aliceProfile ∧
    genericError redisErrMsg ≠ aliceProfile :=
  ⟨rfl, rfl, fun h => absurd (congrArg firstKey h) (by decide)⟩

/-- Claim C4, amended.  A cache read failure aborts the request before the
upstream call and yields the generic error object; a cache write failure
after a fully assembled response likewise replaces the response with the
generic error object.  The cache entries are unchanged in both cases. -/
theorem c4_amended (username : String) (sf : Bool) (entries : CacheEntries)
    (upstream : Except String Json) (todayZ : Int) :
    (get_user_data username ⟨true, sf, entries⟩ upstream todayZ =
      ⟨genericError redisErrMsg, entries, false⟩) ∧
    (∀ resp es b, alookup entries (cacheKey username) = none →
      get_user_data_try username ⟨false, false, entries⟩ upstream todayZ =
        .ok (resp, es, b) →
      firstKey resp = some "username" →
      get_user_data username ⟨false, true, entries⟩ upstream todayZ =
        ⟨genericError redisErrMsg, entries, true⟩) := by
  constructor
  · rfl
  · intro resp es b hmiss htry hfk
    rw [try_unfold username ⟨false, false, entries⟩ upstream todayZ rfl hmiss] at htry
    have h2 := try_unfold username ⟨false, true, entries⟩ upstream todayZ rfl hmiss
    cases upstream with
    | error e0 => exact Except.noConfusion htry
    | ok data =>
      have htryb : (match matchedUserOf data with
          | .error e => .error (e, true)
          | .ok none => .ok (fetchErrorJson, entries, true)
          | .ok (some (dd, mu)) =>
            match assembleProfile dd mu todayZ with
            | .error e => .error (e, true)
            | .ok result =>
              if false then .error (redisErrMsg, true)
              else .ok (result, aset entries (cacheKey username) (result, 3600), true) :
          Except (String × Bool) (Json × CacheEntries × Bool)) =
          .ok (resp, es, b) := htry
      have h2b : get_user_data_try username ⟨false, true, entries⟩ (.ok data) todayZ =
          (match matchedUserOf data with
          | .error e => .error (e, true)
          | .ok none => .ok (fetchErrorJson, entries, true)
          | .ok (some (dd, mu)) =>
            match assembleProfile dd mu todayZ with
            | .error e => .error (e, true)
            | .ok result =>
              if true then .error (redisErrMsg, true)
              else .ok (result, aset entries (cacheKey username) (result, 3600), true)) := h2
      cases hmo : matchedUserOf data with
      | error e1 =>
        rw [hmo] at htryb
        exact Except.noConfusion htryb
      | ok omu =>
        cases omu with
        | none =>
          rw [hmo] at htryb
          injection htryb with h1
          injection h1 with hA h2c
          subst hA
          exact absurd hfk (by decide)
        | some pair =>
          obtain ⟨dd, mu⟩ := pair
          rw [hmo] at htryb
          have htryc : (match assembleProfile dd mu todayZ with
              | .error e =>
                (.error (e, true) :
                  Except (String × Bool) (Json × CacheEntries × Bool))
              | .ok result =>
                if false then .error (redisErrMsg, true)
                else .ok (result,
                  aset entries (cacheKey username) (result, 3600), true)) =
              .ok (resp, es, b) := htryb
          cases hasm : assembleProfile dd mu todayZ with
          | error e2 =>
            rw [hasm] at htryc
            exact Except.noConfusion htryc
          | ok result =>
            have h3 : get_user_data_try username ⟨false, true, entries⟩
                (.ok data) todayZ = .error (redisErrMsg, true) := by
              rw [h2b, hmo]
              show (match assembleProfile dd mu todayZ with
                | .error e =>
                  (.error (e, true) :
                    Except (String × Bool) (Json × CacheEntries × Bool))
                | .ok result =>
                  if true then .error (redisErrMsg, true)
                  else .ok (result,
                    aset entries (cacheKey username) (result, 3600), true)) =
                .error (redisErrMsg, true)
              rw [hasm]
              rfl
            rw [get_user_data, h3]

/-- Witness for the amended C4 at the concrete successful payload. -/
theorem c4_amended_witness :
    (get_user_data "alice" ⟨true, false, []⟩ (.ok okPayload) 20046 =
      ⟨genericError redisErrMsg, [], false⟩) ∧
    (get_user_data "alice" ⟨false, true, []⟩ (.ok okPayload) 20046 =
      ⟨genericError redisErrMsg, [], true⟩) := by
  obtain ⟨hA, hB⟩ := c4_amended "alice" false [] (.ok okPayload) 20046
  exact ⟨hA, hB aliceProfile aliceEntries true rfl rfl rfl⟩

/-- Claim C5 counterexample.  A payload with a non-null matched user whose
userCalendar field is missing does not degrade to a default: the handler
raises a `KeyError` and returns the generic error object. -/
theorem c5_counterexample :
    get_user_data "u" ⟨false, false, []⟩ (.ok noCalendarPayload) 0 =
      ⟨genericError "KeyError: userCalendar", [], true⟩ ∧
    genericError "KeyError: userCalendar" ≠ fetchErrorJson :=
  ⟨rfl, genericError_ne_fetchError _⟩

/-- Claim C5, amended.  Universally over payloads: (1) the `.get` field
reads never raise on a dict, every absent optional field coming out as its
declared null or empty-collection default; (2) whenever the required chain
succeeds, the assembly succeeds (never an error object) and the response
shows each optional field as value-when-present, default-when-absent;
(3)-(7) each field read by direct subscripting is required:
allQuestionsCount, userCalendar, submissionCalendar, submitStats and
acSubmissionNum each raise their KeyError when the key is missing;
(8) any assembly exception makes the handler return the generic error
object with no cache write, so a missing required field yields the generic
error object; (9) a successful assembly with a writable store is returned
and cached verbatim, so missing optional fields never produce an error
object. -/
theorem c5_amended :
    (∀ (kvs : List (String × Json)) (specs : List (String × String × Json)),
      getFields (Json.obj kvs) specs =
        .ok (specs.map (fun sp => (sp.1, (alookup kvs sp.2.1).getD sp.2.2)))) ∧
    (∀ (dd : Json) (todayZ : Int) (mukvs profkvs : List (String × Json))
        (allQ uc : Json) (s : String) (cal : List (String × Int))
        (progress : List (String × Bucket))
        (problems : List (String × Json × Json)),
      pySubscript dd "allQuestionsCount" = .ok allQ →
      (alookup mukvs "profile").getD (Json.obj []) = Json.obj profkvs →
      pySubscript (Json.obj mukvs) "userCalendar" = .ok uc →
      pySubscript uc "submissionCalendar" = .ok (Json.str s) →
      pyLoadsCalendar (Json.str s) = .ok cal →
      process_progress_by_year cal todayZ = .ok progress →
      buildProblems allQ (Json.obj mukvs) = .ok problems →
      assembleProfile dd (Json.obj mukvs) todayZ = .ok (Json.obj (
        muFieldSpecs.map
          (fun sp => (sp.1, (alookup mukvs sp.2.1).getD sp.2.2)) ++
        profileFieldSpecs.map
          (fun sp => (sp.1, (alookup profkvs sp.2.1).getD sp.2.2)) ++
        [("progress", progressJson progress),
         ("problem", problemsJson problems)]))) ∧
    (∀ (mu : Json) (todayZ : Int) (kvs : List (String × Json)),
      alookup kvs "allQuestionsCount" = none →
      assembleProfile (Json.obj kvs) mu todayZ =
        .error "KeyError: allQuestionsCount") ∧
    (∀ (dd : Json) (todayZ : Int) (mukvs : List (String × Json)) (allQ : Json),
      pySubscript dd "allQuestionsCount" = .ok allQ →
      alookup mukvs "userCalendar" = none →
      assembleProfile dd (Json.obj mukvs) todayZ =
        .error "KeyError: userCalendar") ∧
    (∀ (dd : Json) (todayZ : Int) (mukvs uckvs : List (String × Json))
        (allQ : Json),
      pySubscript dd "allQuestionsCount" = .ok allQ →
      pySubscript (Json.obj mukvs) "userCalendar" = .ok (Json.obj uckvs) →
      alookup uckvs "submissionCalendar" = none →
      assembleProfile dd (Json.obj mukvs) todayZ =
        .error "KeyError: submissionCalendar") ∧
    (∀ (allQ : Json) (mukvs : List (String × Json)) (qlist : List Json)
        (p : List (String × Json × Json)),
      pyIter allQ = .ok qlist →
      foldE applyTotal problems0 qlist = .ok p →
      alookup mukvs "submitStats" = none →
      buildProblems allQ (Json.obj mukvs) = .error "KeyError: submitStats") ∧
    (∀ (allQ mu : Json) (sskvs : List (String × Json)) (qlist : List Json)
        (p : List (String × Json × Json)),
      pyIter allQ = .ok qlist →
      foldE applyTotal problems0 qlist = .ok p →
      pySubscript mu "submitStats" = .ok (Json.obj sskvs) →
      alookup sskvs "acSubmissionNum" = none →
      buildProblems allQ mu = .error "KeyError: acSubmissionNum") ∧
    (∀ (username : String) (cache : CacheState)
        (upstream : Except String Json) (todayZ : Int) (data dd mu : Json)
        (e : String),
      cache.getFails = false →
      alookup cache.entries (cacheKey username) = none →
      upstream = .ok data →
      matchedUserOf data = .ok (some (dd, mu)) →
      assembleProfile dd mu todayZ = .error e →
      get_user_data username cache upstream todayZ =
        ⟨genericError e, cache.entries, true⟩) ∧
    (∀ (username : String) (cache : CacheState)
        (upstream : Except String Json) (todayZ : Int)
        (data dd mu result : Json),
      cache.getFails = false →
      alookup cache.entries (cacheKey username) = none →
      cache.setFails = false →
      upstream = .ok data →
      matchedUserOf data = .ok (some (dd, mu)) →
      assembleProfile dd mu todayZ = .ok result →
      get_user_data username cache upstream todayZ =
        ⟨result, aset cache.entries (cacheKey username) (result, 3600),
          true⟩) := by
  refine ⟨getFields_obj, ?_, ?_, ?_, ?_, ?_, ?_, ?_, ?_⟩
  · intro dd todayZ mukvs profkvs allQ uc s cal progress problems hq hprof huc
      hsc hload hproc hbp
    exact assembleProfile_defaults dd todayZ mukvs profkvs allQ uc s cal
      progress problems hq hprof huc hsc hload hproc hbp
  · intro mu todayZ kvs hnone
    exact assembleProfile_noAllQuestions mu todayZ kvs hnone
  · intro dd todayZ mukvs allQ hq hnone
    exact assembleProfile_noUserCalendar dd todayZ mukvs allQ hq hnone
  · intro dd todayZ mukvs uckvs allQ hq huc hnone
    exact assembleProfile_noSubmissionCalendar dd todayZ mukvs uckvs allQ hq
      huc hnone
  · intro allQ mukvs qlist p hiter hfold hnone
    exact buildProblems_noSubmitStats allQ mukvs qlist p hiter hfold hnone
  · intro allQ mu sskvs qlist p hiter hfold hss hnone
    exact buildProblems_noAcSubmissionNum allQ mu sskvs qlist p hiter hfold
      hss hnone
  · intro username cache upstream todayZ data dd mu e hget hmiss hup hmo hasm
    exact handle_assembleError username cache upstream todayZ data dd mu e
      hget hmiss hup hmo hasm
  · intro username cache upstream todayZ data dd mu result hget hmiss hset
      hup hmo hasm
    exact handle_assembleOk username cache upstream todayZ data dd mu result
      hget hmiss hset hup hmo hasm

/-- Witness for the amended C5: the empty profile object yields every
profile field at its default; the minimal matched user assembles with all
optional fields defaulted and the handler returns and caches it; a matched
user without userCalendar raises its KeyError; and a payload without
submitStats makes the handler return the generic error object. -/
theorem c5_amended_witness :
    getFields (Json.obj []) profileFieldSpecs =
      .ok [("ranking", Json.null), ("realname", Json.null),
           ("aboutme", Json.null), ("school", Json.null),
           ("website", Json.arr []), ("country_name", Json.null),
           ("company", Json.null), ("job_title", Json.null),
           ("skill", Json.arr [])] ∧
    assembleProfile
      (Json.obj [("matchedUser", Json.obj [
          ("userCalendar",
            Json.obj [("submissionCalendar", Json.str "\x7b\x7d")]),
          ("submitStats", Json.obj [("acSubmissionNum", Json.arr [])])]),
        ("allQuestionsCount", Json.arr [])])
      (Json.obj [
        ("userCalendar",
          Json.obj [("submissionCalendar", Json.str "\x7b\x7d")]),
        ("submitStats", Json.obj [("acSubmissionNum", Json.arr [])])]) 0 =
      .ok minimalProfile ∧
    assembleProfile (Json.obj [("allQuestionsCount", Json.arr [])])
      (Json.obj [("username", Json.str "u")]) 0 =
      .error "KeyError: userCalendar" ∧
    get_user_data "u" ⟨false, false, []⟩ (.ok noSubmitStatsPayload) 0 =
      ⟨genericError "KeyError: submitStats", [], true⟩ ∧
    get_user_data "u" ⟨false, false, []⟩ (.ok minimalPayload) 0 =
      ⟨minimalProfile, [(cacheKey "u", minimalProfile, 3600)], true⟩ := by
  obtain ⟨p1, p2, p3, p4, p5, p6, p7, p8, p9⟩ := c5_amended
  refine ⟨?_, ?_, ?_, ?_, ?_⟩
  · exact p1 [] profileFieldSpecs
  · exact p2
      (Json.obj [("matchedUser", Json.obj [
          ("userCalendar",
            Json.obj [("submissionCalendar", Json.str "\x7b\x7d")]),
          ("submitStats", Json.obj [("acSubmissionNum", Json.arr [])])]),
        ("allQuestionsCount", Json.arr [])])
      0
      [("userCalendar",
         Json.obj [("submissionCalendar", Json.str "\x7b\x7d")]),
       ("submitStats", Json.obj [("acSubmissionNum", Json.arr [])])]
      []
      (Json.arr [])
      (Json.obj [("submissionCalendar", Json.str "\x7b\x7d")])
      "\x7b\x7d"
      []
      [("current", emptyBucket)]
      problems0
      rfl rfl rfl rfl rfl rfl rfl
  · exact p4 (Json.obj [("allQuestionsCount", Json.arr [])]) 0
      [("username", Json.str "u")] (Json.arr []) rfl rfl
  · exact p8 "u" ⟨false, false, []⟩ (.ok noSubmitStatsPayload) 0
      noSubmitStatsPayload
      (Json.obj [("matchedUser", Json.obj [
          ("userCalendar",
            Json.obj [("submissionCalendar", Json.str "\x7b\x7d")])]),
        ("allQuestionsCount", Json.arr [])])
      (Json.obj [("userCalendar",
        Json.obj [("submissionCalendar", Json.str "\x7b\x7d")])])
      "KeyError: submitStats" rfl rfl rfl rfl rfl
  · exact p9 "u" ⟨false, false, []⟩ (.ok minimalPayload) 0
      minimalPayload
      (Json.obj [("matchedUser", Json.obj [
          ("userCalendar",
            Json.obj [("submissionCalendar", Json.str "\x7b\x7d")]),
          ("submitStats", Json.obj [("acSubmissionNum", Json.arr [])])]),
        ("allQuestionsCount", Json.arr [])])
      (Json.obj [
        ("userCalendar",
          Json.obj [("submissionCalendar", Json.str "\x7b\x7d")]),
        ("submitStats", Json.obj [("acSubmissionNum", Json.arr [])])])
      minimalProfile rfl rfl rfl rfl rfl rfl

/-- Claim C7.  After a successful miss-path response (one that assembled a
profile, recognizable by its leading "username" key), an immediate repeat
request for the same username answers from the cache: it returns the
identical JSON object, does not invoke the upstream client (for any
upstream behaviour and any later date), performs no cache write, and does
not refresh the TTL: the resulting cache entries are exactly those left by
the first request. -/
theorem c7_cache_roundtrip (username : String) (cache : CacheState)
    (up up2 : Except String Json) (todayZ todayZ2 : Int) (sf2 : Bool)
    (resp : Json) (es : CacheEntries) (b : Bool)
    (hget : cache.getFails = false)
    (hmiss : alookup cache.entries (cacheKey username) = none)
    (hok : get_user_data_try username cache up todayZ = .ok (resp, es, b))
    (hprof : firstKey resp = some "username") :
    get_user_data username ⟨false, sf2, es⟩ up2 todayZ2 = ⟨resp, es, false⟩ := by
  rw [try_unfold username cache up todayZ hget hmiss] at hok
  cases up with
  | error e0 => exact Except.noConfusion hok
  | ok data =>
    have hok2 : (match matchedUserOf data with
        | .error e => .error (e, true)
        | .ok none => .ok (fetchErrorJson, cache.entries, true)
        | .ok (some (dd, mu)) =>
          match assembleProfile dd mu todayZ with
          | .error e => .error (e, true)
          | .ok result =>
            if cache.setFails then .error (redisErrMsg, true)
            else .ok (result,
              aset cache.entries (cacheKey username) (result, 3600), true) :
        Except (String × Bool) (Json × CacheEntries × Bool)) =
        .ok (resp, es, b) := hok
    cases hmo : matchedUserOf data with
    | error e1 =>
      rw [hmo] at hok2
      exact Except.noConfusion hok2
    | ok omu =>
      cases omu with
      | none =>
        rw [hmo] at hok2
        injection hok2 with h1
        injection h1 with hA h2
        subst hA
        exact absurd hprof (by decide)
      | some pair =>
        obtain ⟨dd, mu⟩ := pair
        rw [hmo] at hok2
        have hok3 : (match assembleProfile dd mu todayZ with
            | .error e =>
              (.error (e, true) :
                Except (String × Bool) (Json × CacheEntries × Bool))
            | .ok result =>
              if cache.setFails then .error (redisErrMsg, true)
              else .ok (result,
                aset cache.entries (cacheKey username) (result, 3600), true)) =
            .ok (resp, es, b) := hok2
        cases hasm : assembleProfile dd mu todayZ with
        | error e2 =>
          rw [hasm] at hok3
          exact Except.noConfusion hok3
        | ok result =>
          rw [hasm] at hok3
          cases hsf : cache.setFails with
          | true =>
            rw [hsf] at hok3
            exact Except.noConfusion hok3
          | false =>
            rw [hsf] at hok3
            injection hok3 with h1
            injection h1 with hA h2
            injection h2 with hB hC
            subst hA
            subst hB
            rw [get_user_data, get_user_data_try.eq_def]
            rw [show alookup (aset cache.entries (cacheKey username)
              (result, 3600)) (cacheKey username) = some (result, 3600)
              from alookup_aset_self _ _ _]
            rfl

/-- Witness for C7: after the successful `okPayload` run, the repeat
request answers from the cache even when upstream is down, the store
rejects writes and the clock has moved. -/
theorem c7_cache_roundtrip_witness :
    get_user_data "alice" ⟨false, true, aliceEntries⟩ (.error "net down") 99999 =
      ⟨aliceProfile, aliceEntries, false⟩ :=
  c7_cache_roundtrip "alice" ⟨false, false, []⟩ (.ok okPayload)
    (.error "net down") 20046 99999 true aliceProfile aliceEntries true
    rfl rfl rfl rfl

/-! ## Lemmas for the difficulty-statistics loops -/

theorem getLast?_cons_eq {α : Type} (a : α) (l : List α) :
    (a :: l).getLast? = some (l.getLast?.getD a) := by
  induction l generalizing a with
  | nil => rfl
  | cons b t ih =>
    rw [List.getLast?_cons_cons, ih b]
    rfl

theorem containsKey_iff {α β : Type} [DecidableEq α] (m : List (α × β))
    (k : α) : containsKey m k = true ↔ k ∈ m.map Prod.fst := by
  simp only [containsKey, List.any_eq_true, decide_eq_true_eq, List.mem_map]

theorem keys_aset_of_mem {α β : Type} [DecidableEq α] (m : List (α × β))
    (k : α) (v : β) (h : k ∈ m.map Prod.fst) :
    (aset m k v).map Prod.fst = m.map Prod.fst := by
  induction m with
  | nil => simp at h
  | cons kv t ih =>
    obtain ⟨k2, v2⟩ := kv
    by_cases h2 : k2 = k
    · subst h2
      simp [aset]
    · simp only [List.map_cons, List.mem_cons] at h
      rcases h with h | h
      · exact absurd h.symm h2
      · simp [aset, h2, ih h]

theorem containsKey_congr {α β γ : Type} [DecidableEq α] (m : List (α × β))
    (m2 : List (α × γ)) (hk : m.map Prod.fst = m2.map Prod.fst) (k : α) :
    containsKey m k = containsKey m2 k := by
  by_cases hm : k ∈ m2.map Prod.fst
  · rw [(containsKey_iff m k).mpr (hk ▸ hm), (containsKey_iff m2 k).mpr hm]
  · have h1 : containsKey m k = false := by
      cases hh : containsKey m k
      · rfl
      · exact absurd (hk ▸ (containsKey_iff m k).mp hh) hm
    have h2 : containsKey m2 k = false := by
      cases hh : containsKey m2 k
      · rfl
      · exact absurd ((containsKey_iff m2 k).mp hh) hm
    rw [h1, h2]

/-- Inversion of one iteration of the total-questions loop. -/
theorem applyTotal_step (p : List (String × Json × Json)) (q : Json)
    (d : String) (hd : difficultyOf q = some d) :
    (containsKey p d = false → applyTotal p q = .ok p) ∧
    (∀ c, containsKey p d = true → countOf q = some c →
      applyTotal p q = .ok (aset p d ((alookupD p d).1, c))) := by
  rw [difficultyOf] at hd
  cases hsub : pySubscript q "difficulty" with
  | error e =>
    rw [hsub] at hd
    exact Option.noConfusion hd
  | ok dv =>
    rw [hsub] at hd
    cases dv with
    | str d0 =>
      injection hd with hd2
      subst hd2
      have ha : applyTotal p q =
          (if containsKey p (lowerStr d0) then
            match pySubscript q "count" with
            | .error e => .error e
            | .ok cv =>
              .ok (aset p (lowerStr d0) ((alookupD p (lowerStr d0)).1, cv))
          else .ok p) := by
        rw [applyTotal, hsub]
        rfl
      constructor
      · intro hck
        rw [ha, hck]
        rfl
      · intro c hck hc
        rw [countOf] at hc
        cases hsc : pySubscript q "count" with
        | error e =>
          rw [hsc] at hc
          exact Option.noConfusion hc
        | ok cv =>
          rw [hsc] at hc
          injection hc with hc2
          subst hc2
          rw [ha, hck, hsc]
          rfl
    | null => exact Option.noConfusion hd
    | bool b => exact Option.noConfusion hd
    | num n => exact Option.noConfusion hd
    | arr xs => exact Option.noConfusion hd
    | obj kvs => exact Option.noConfusion hd

/-- Inversion of one iteration of the solved-questions loop. -/
theorem applySolved_step (p : List (String × Json × Json)) (q : Json)
    (d : String) (hd : difficultyOf q = some d) :
    (containsKey p d = false → applySolved p q = .ok p) ∧
    (∀ c, containsKey p d = true → countOf q = some c →
      applySolved p q = .ok (aset p d (c, (alookupD p d).2))) := by
  rw [difficultyOf] at hd
  cases hsub : pySubscript q "difficulty" with
  | error e =>
    rw [hsub] at hd
    exact Option.noConfusion hd
  | ok dv =>
    rw [hsub] at hd
    cases dv with
    | str d0 =>
      injection hd with hd2
      subst hd2
      have ha : applySolved p q =
          (if containsKey p (lowerStr d0) then
            match pySubscript q "count" with
            | .error e => .error e
            | .ok cv =>
              .ok (aset p (lowerStr d0) (cv, (alookupD p (lowerStr d0)).2))
          else .ok p) := by
        rw [applySolved, hsub]
        rfl
      constructor
      · intro hck
        rw [ha, hck]
        rfl
      · intro c hck hc
        rw [countOf] at hc
        cases hsc : pySubscript q "count" with
        | error e =>
          rw [hsc] at hc
          exact Option.noConfusion hc
        | ok cv =>
          rw [hsc] at hc
          injection hc with hc2
          subst hc2
          rw [ha, hck, hsc]
          rfl
    | null => exact Option.noConfusion hd
    | bool b => exact Option.noConfusion hd
    | num n => exact Option.noConfusion hd
    | arr xs => exact Option.noConfusion hd
    | obj kvs => exact Option.noConfusion hd

/-- Characterization of the total-questions fold: the keys are unchanged
and each key ends up holding the count of the last matching entry (the
overwrite-in-order semantics), with the solved component untouched. -/
theorem applyTotal_fold (qs : List Json) (p : List (String × Json × Json))
    (h1 : ∀ q ∈ qs, (difficultyOf q).isSome = true)
    (h2 : ∀ q ∈ qs, ∀ t, difficultyOf q = some t →
      containsKey p t = true → (countOf q).isSome = true) :
    ∃ p2, foldE applyTotal p qs = .ok p2 ∧
      p2.map Prod.fst = p.map Prod.fst ∧
      ∀ k, alookup p2 k = (alookup p k).map
        (fun old => (old.1, (lastTierCount qs k).getD old.2)) := by
  induction qs generalizing p with
  | nil =>
    refine ⟨p, rfl, rfl, fun k => ?_⟩
    cases alookup p k <;> simp [lastTierCount]
  | cons q qs ih =>
    obtain ⟨d, hd⟩ := Option.isSome_iff_exists.mp (h1 q (List.mem_cons_self _ _))
    obtain ⟨hstep1, hstep2⟩ := applyTotal_step p q d hd
    cases hck : containsKey p d with
    | false =>
      obtain ⟨p2, hfold, hkeys, hchar⟩ := ih p
        (fun q2 hq2 => h1 q2 (List.mem_cons_of_mem _ hq2))
        (fun q2 hq2 t ht hckt => h2 q2 (List.mem_cons_of_mem _ hq2) t ht hckt)
      refine ⟨p2, ?_, hkeys, fun k => ?_⟩
      · rw [foldE_ok_cons]
        exact ⟨p, hstep1 hck, hfold⟩
      · rw [hchar k]
        cases hak : alookup p k with
        | none => simp
        | some old =>
          have hne : ¬(difficultyOf q = some k) := by
            rw [hd]
            intro hcontra
            injection hcontra with hdk
            subst hdk
            have hmem : d ∈ p.map Prod.fst := by
              rw [alookup_isSome]
              exact ⟨old, hak⟩
            rw [(containsKey_iff p d).mpr hmem] at hck
            exact Bool.noConfusion hck
          simp [lastTierCount, List.filter_cons, hne]
    | true =>
      obtain ⟨c, hc⟩ := Option.isSome_iff_exists.mp
        (h2 q (List.mem_cons_self _ _) d hd hck)
      have hmemd : d ∈ p.map Prod.fst := (containsKey_iff p d).mp hck
      have hkeq : (aset p d ((alookupD p d).1, c)).map Prod.fst =
          p.map Prod.fst := keys_aset_of_mem _ _ _ hmemd
      obtain ⟨p2, hfold, hkeys, hchar⟩ := ih (aset p d ((alookupD p d).1, c))
        (fun q2 hq2 => h1 q2 (List.mem_cons_of_mem _ hq2))
        (fun q2 hq2 t ht hckt => h2 q2 (List.mem_cons_of_mem _ hq2) t ht
          (by rw [← containsKey_congr _ _ hkeq t]; exact hckt))
      refine ⟨p2, ?_, hkeys.trans hkeq, fun k => ?_⟩
      · rw [foldE_ok_cons]
        exact ⟨_, hstep2 c hck hc, hfold⟩
      · rw [hchar k]
        obtain ⟨old0, hold0⟩ := (alookup_isSome _ _).mp hmemd
        by_cases hkd : k = d
        · subst hkd
          rw [alookup_aset_self, hold0]
          have hlast : lastTierCount (q :: qs) k =
              some ((lastTierCount qs k).getD c) := by
            have hcq : countOf q = some c := hc
            rw [lastTierCount]
            rw [show (q :: qs).filter (fun q2 => decide (difficultyOf q2 = some k)) =
              q :: qs.filter (fun q2 => decide (difficultyOf q2 = some k)) from by
                simp [List.filter_cons, hd]]
            rw [show (q :: qs.filter
                (fun q2 => decide (difficultyOf q2 = some k))).filterMap countOf =
              c :: (qs.filter
                (fun q2 => decide (difficultyOf q2 = some k))).filterMap countOf from by
                simp [List.filterMap_cons, hcq]]
            rw [getLast?_cons_eq]
            rfl
          rw [hlast]
          simp [alookupD, hold0]
        · rw [alookup_aset_ne _ _ _ _ (fun hdk => hkd hdk.symm)]
          cases hak : alookup p k with
          | none => simp
          | some old =>
            have hne : ¬(difficultyOf q = some k) := by
              rw [hd]
              intro hcontra
              injection hcontra with hdk
              exact hkd hdk.symm
            simp [lastTierCount, List.filter_cons, hne]

/-- Characterization of the solved-questions fold: same matching rule,
overwriting the solved component and leaving the totals untouched. -/
theorem applySolved_fold (qs : List Json) (p : List (String × Json × Json))
    (h1 : ∀ q ∈ qs, (difficultyOf q).isSome = true)
    (h2 : ∀ q ∈ qs, ∀ t, difficultyOf q = some t →
      containsKey p t = true → (countOf q).isSome = true) :
    ∃ p2, foldE applySolved p qs = .ok p2 ∧
      p2.map Prod.fst = p.map Prod.fst ∧
      ∀ k, alookup p2 k = (alookup p k).map
        (fun old => ((lastTierCount qs k).getD old.1, old.2)) := by
  induction qs generalizing p with
  | nil =>
    refine ⟨p, rfl, rfl, fun k => ?_⟩
    cases alookup p k <;> simp [lastTierCount]
  | cons q qs ih =>
    obtain ⟨d, hd⟩ := Option.isSome_iff_exists.mp (h1 q (List.mem_cons_self _ _))
    obtain ⟨hstep1, hstep2⟩ := applySolved_step p q d hd
    cases hck : containsKey p d with
    | false =>
      obtain ⟨p2, hfold, hkeys, hchar⟩ := ih p
        (fun q2 hq2 => h1 q2 (List.mem_cons_of_mem _ hq2))
        (fun q2 hq2 t ht hckt => h2 q2 (List.mem_cons_of_mem _ hq2) t ht hckt)
      refine ⟨p2, ?_, hkeys, fun k => ?_⟩
      · rw [foldE_ok_cons]
        exact ⟨p, hstep1 hck, hfold⟩
      · rw [hchar k]
        cases hak : alookup p k with
        | none => simp
        | some old =>
          have hne : ¬(difficultyOf q = some k) := by
            rw [hd]
            intro hcontra
            injection hcontra with hdk
            subst hdk
            have hmem : d ∈ p.map Prod.fst := by
              rw [alookup_isSome]
              exact ⟨old, hak⟩
            rw [(containsKey_iff p d).mpr hmem] at hck
            exact Bool.noConfusion hck
          simp [lastTierCount, List.filter_cons, hne]
    | true =>
      obtain ⟨c, hc⟩ := Option.isSome_iff_exists.mp
        (h2 q (List.mem_cons_self _ _) d hd hck)
      have hmemd : d ∈ p.map Prod.fst := (containsKey_iff p d).mp hck
      have hkeq : (aset p d (c, (alookupD p d).2)).map Prod.fst =
          p.map Prod.fst := keys_aset_of_mem _ _ _ hmemd
      obtain ⟨p2, hfold, hkeys, hchar⟩ := ih (aset p d (c, (alookupD p d).2))
        (fun q2 hq2 => h1 q2 (List.mem_cons_of_mem _ hq2))
        (fun q2 hq2 t ht hckt => h2 q2 (List.mem_cons_of_mem _ hq2) t ht
          (by rw [← containsKey_congr _ _ hkeq t]; exact hckt))
      refine ⟨p2, ?_, hkeys.trans hkeq, fun k => ?_⟩
      · rw [foldE_ok_cons]
        exact ⟨_, hstep2 c hck hc, hfold⟩
      · rw [hchar k]
        obtain ⟨old0, hold0⟩ := (alookup_isSome _ _).mp hmemd
        by_cases hkd : k = d
        · subst hkd
          rw [alookup_aset_self, hold0]
          have hlast : lastTierCount (q :: qs) k =
              some ((lastTierCount qs k).getD c) := by
            have hcq : countOf q = some c := hc
            rw [lastTierCount]
            rw [show (q :: qs).filter (fun q2 => decide (difficultyOf q2 = some k)) =
              q :: qs.filter (fun q2 => decide (difficultyOf q2 = some k)) from by
                simp [List.filter_cons, hd]]
            rw [show (q :: qs.filter
                (fun q2 => decide (difficultyOf q2 = some k))).filterMap countOf =
              c :: (qs.filter
                (fun q2 => decide (difficultyOf q2 = some k))).filterMap countOf from by
                simp [List.filterMap_cons, hcq]]
            rw [getLast?_cons_eq]
            rfl
          rw [hlast]
          simp [alookupD, hold0]
        · rw [alookup_aset_ne _ _ _ _ (fun hdk => hkd hdk.symm)]
          cases hak : alookup p k with
          | none => simp
          | some old =>
            have hne : ¬(difficultyOf q = some k) := by
              rw [hd]
              intro hcontra
              injection hcontra with hdk
              exact hkd hdk.symm
            simp [lastTierCount, List.filter_cons, hne]

/-- Claim C8.  For every upstream payload with well-formed question-stat
entries (a string difficulty on every entry, and a count on every entry
whose lower-cased difficulty is one of the three tiers), the assembled
problems map has exactly the keys easy, medium, hard; each tier holds the
count of the last global-question entry matching it by lower-cased name as
its total (0 if none matches) and the count of the last accepted-submission
entry matching it as its solved value (0 if none matches).  Entries whose
lower-cased difficulty falls outside the three tiers, such as an "All"
aggregate row, change nothing, as the last-matching-entry characterization
shows. -/
theorem c8_difficulty (qs subs : List Json) (mu ss : Json)
    (hss : pySubscript mu "submitStats" = .ok ss)
    (hac : pySubscript ss "acSubmissionNum" = .ok (Json.arr subs))
    (hq1 : ∀ q ∈ qs, (difficultyOf q).isSome = true)
    (hq2 : ∀ q ∈ qs, ∀ t, difficultyOf q = some t →
      t ∈ ["easy", "medium", "hard"] → (countOf q).isSome = true)
    (hs1 : ∀ q ∈ subs, (difficultyOf q).isSome = true)
    (hs2 : ∀ q ∈ subs, ∀ t, difficultyOf q = some t →
      t ∈ ["easy", "medium", "hard"] → (countOf q).isSome = true) :
    ∃ p, buildProblems (Json.arr qs) mu = .ok p ∧
      p.map Prod.fst = ["easy", "medium", "hard"] ∧
      ∀ tier ∈ ["easy", "medium", "hard"],
        alookup p tier = some ((lastTierCount subs tier).getD (Json.num 0),
          (lastTierCount qs tier).getD (Json.num 0)) := by
  have hkeys0 : problems0.map Prod.fst = ["easy", "medium", "hard"] := rfl
  have hq2b : ∀ q ∈ qs, ∀ t, difficultyOf q = some t →
      containsKey problems0 t = true → (countOf q).isSome = true := by
    intro q hq t ht hck
    refine hq2 q hq t ht ?_
    have := (containsKey_iff problems0 t).mp hck
    rw [hkeys0] at this
    exact this
  obtain ⟨p1, hfold1, hkeys1, hchar1⟩ := applyTotal_fold qs problems0 hq1 hq2b
  have hkeys1b : p1.map Prod.fst = ["easy", "medium", "hard"] :=
    hkeys1.trans hkeys0
  have hs2b : ∀ q ∈ subs, ∀ t, difficultyOf q = some t →
      containsKey p1 t = true → (countOf q).isSome = true := by
    intro q hq t ht hck
    refine hs2 q hq t ht ?_
    have := (containsKey_iff p1 t).mp hck
    rw [hkeys1b] at this
    exact this
  obtain ⟨p2, hfold2, hkeys2, hchar2⟩ := applySolved_fold subs p1 hs1 hs2b
  have hb1 : buildProblems (Json.arr qs) mu =
      (match foldE applyTotal problems0 qs with
      | .error e => .error e
      | .ok p3 =>
        match pySubscript mu "submitStats" with
        | .error e => .error e
        | .ok ss2 =>
          match pySubscript ss2 "acSubmissionNum" with
          | .error e => .error e
          | .ok ac =>
            match pyIter ac with
            | .error e => .error e
            | .ok subs2 => foldE applySolved p3 subs2) := rfl
  rw [hfold1] at hb1
  have hb2 : buildProblems (Json.arr qs) mu =
      (match pySubscript mu "submitStats" with
      | .error e => .error e
      | .ok ss2 =>
        match pySubscript ss2 "acSubmissionNum" with
        | .error e => .error e
        | .ok ac =>
          match pyIter ac with
          | .error e => .error e
          | .ok subs2 => foldE applySolved p1 subs2) := hb1
  rw [hss] at hb2
  have hb3 : buildProblems (Json.arr qs) mu =
      (match pySubscript ss "acSubmissionNum" with
      | .error e => .error e
      | .ok ac =>
        match pyIter ac with
        | .error e => .error e
        | .ok subs2 => foldE applySolved p1 subs2) := hb2
  rw [hac] at hb3
  have hb4 : buildProblems (Json.arr qs) mu =
      foldE applySolved p1 subs := hb3
  rw [hfold2] at hb4
  refine ⟨p2, hb4, hkeys2.trans hkeys1b, fun tier htier => ?_⟩
  rw [hchar2 tier, hchar1 tier]
  simp only [List.mem_cons, List.mem_singleton, List.not_mem_nil, or_false] at htier
  rcases htier with rfl | rfl | rfl
  · rw [show alookup problems0 "easy" = some (Json.num 0, Json.num 0) from rfl]
    simp
  · rw [show alookup problems0 "medium" = some (Json.num 0, Json.num 0) from rfl]
    simp
  · rw [show alookup problems0 "hard" = some (Json.num 0, Json.num 0) from rfl]
    simp

/-- Witness for C8 at concrete question-stat lists that include an "All"
aggregate row, which populates no tier. -/
theorem c8_difficulty_witness :
    ∃ p, buildProblems (Json.arr [
        Json.obj [("difficulty", Json.str "All"), ("count", Json.num 3000)],
        Json.obj [("difficulty", Json.str "Easy"), ("count", Json.num 800)],
        Json.obj [("difficulty", Json.str "Medium"), ("count", Json.num 1600)],
        Json.obj [("difficulty", Json.str "Hard"), ("count", Json.num 600)]])
      (Json.obj [("submitStats", Json.obj [("acSubmissionNum", Json.arr [
        Json.obj [("difficulty", Json.str "All"), ("count", Json.num 10)],
        Json.obj [("difficulty", Json.str "Easy"), ("count", Json.num 5)],
        Json.obj [("difficulty", Json.str "Medium"), ("count", Json.num 4)],
        Json.obj [("difficulty", Json.str "Hard"), ("count", Json.num 1)]])])]) =
      .ok p ∧
      p.map Prod.fst = ["easy", "medium", "hard"] ∧
      ∀ tier ∈ ["easy", "medium", "hard"],
        alookup p tier = some
          ((lastTierCount [
            Json.obj [("difficulty", Json.str "All"), ("count", Json.num 10)],
            Json.obj [("difficulty", Json.str "Easy"), ("count", Json.num 5)],
            Json.obj [("difficulty", Json.str "Medium"), ("count", Json.num 4)],
            Json.obj [("difficulty", Json.str "Hard"), ("count", Json.num 1)]]
            tier).getD (Json.num 0),
          (lastTierCount [
            Json.obj [("difficulty", Json.str "All"), ("count", Json.num 3000)],
            Json.obj [("difficulty", Json.str "Easy"), ("count", Json.num 800)],
            Json.obj [("difficulty", Json.str "Medium"), ("count", Json.num 1600)],
            Json.obj [("difficulty", Json.str "Hard"), ("count", Json.num 600)]]
            tier).getD (Json.num 0)) :=
  c8_difficulty _ _ _ _ rfl rfl (by decide)
    (by
      intro q hq t ht htier
      simp only [List.mem_cons, List.not_mem_nil, or_false] at hq
      rcases hq with rfl | rfl | rfl | rfl <;> decide)
    (by decide)
    (by
      intro q hq t ht htier
      simp only [List.mem_cons, List.not_mem_nil, or_false] at hq
      rcases hq with rfl | rfl | rfl | rfl <;> decide)

end LCAPI
